import Mathlib

/-!
Shallow embedding of the graphic buffer allocator and cache engine of
`modules/imx2d/common/src/imx2d_common.cpp` (classes `G2dBufRepo`,
`G2dBufPoolInstance`, `G2dBufPool`, `Imx2dGAllocator`), together with proofs
about the best-fit reuse policy, the cache ceilings, FIFO eviction, the
address-range registry and the facade operations.

Modelling conventions:
* `g2d_buf` descriptors are records of a virtual base address and a byte size
  (both `Nat`; `buf_size` is a non-negative `int` in the source), plus an `id`
  that stands for the identity of the heap object behind a `struct g2d_buf*`
  pointer, so that the source's pointer-equality assertion `buf == _buf`
  becomes decidable equality of descriptors.
* The throwing macro `IMX2D_Assert` is modelled by returning `Option`:
  `none` is a raised assertion (thrown `std::runtime_error`), `some` a normal
  completion.  Pool `free`/cache-allocation have dedicated small result types
  so that the "released directly to the underlying allocator" outcome stays
  distinguishable from the cached outcome.
* The external allocator `g2d_alloc` is a parameter: functions that may call
  it take the value it would return (`Option g2d_buf`, `none` = exhaustion).
  `g2d_free` always succeeds in the source path under scrutiny (its result is
  asserted to be zero); releases therefore need no explicit modelling beyond
  the descriptor leaving all state.
* `std::set<GBCPtr, G2dBufContainerVaddrCompare>` is modelled as the list of
  its elements.  `find` looks for an element equivalent to the probe under
  the comparator (neither compares below the other), `insert` is a no-op when
  an equivalent element is present, `erase(key)` removes the elements
  equivalent to the key: these are exactly the operations the tree performs,
  expressed on the element list; the position of insertion is immaterial to
  every operation used, because they only test comparator-equivalence.
-/

/-- Model of `struct g2d_buf` (from the external `g2d.h`): the fields the
repository code reads, plus `id` standing for the address of the descriptor
object itself (pointer identity). `buf_handle`/`buf_paddr` are never
inspected by the embedded code and are omitted. -/
structure g2d_buf where
  id : Nat
  buf_vaddr : Nat
  buf_size : Nat
deriving DecidableEq, Repr

/-- Model of class `G2dBufContainer`: a `g2d_buf` descriptor together with its
`cacheable` attribute. -/
structure G2dBufContainer where
  g2dBuf : g2d_buf
  cacheable : Bool
deriving DecidableEq, Repr

/-- Overlap test of `G2dBufContainerVaddrCompare`: the source computes
`!!max(min(v1+s1, v2+s2) - max(v1, v2), 0L)` on `char*` arithmetic, which is
nonzero exactly when `max v1 v2 < min (v1+s1) (v2+s2)`. -/
def g2dBufOverlap (b1 b2 : g2d_buf) : Bool :=
  decide (max b1.buf_vaddr b2.buf_vaddr
            < min (b1.buf_vaddr + b1.buf_size) (b2.buf_vaddr + b2.buf_size))

/-- Model of `struct G2dBufContainerVaddrCompare::operator()`:
`(v1 < v2) && !overlap`.  It compares buffer address and size only. -/
def G2dBufContainerVaddrCompare (b1 b2 : g2d_buf) : Bool :=
  decide (b1.buf_vaddr < b2.buf_vaddr) && ! g2dBufOverlap b1 b2

/-- Comparator equivalence: the `std::set` treats two containers as the same
slot when neither compares below the other. -/
def g2dBufEquiv (b1 b2 : g2d_buf) : Bool :=
  ! G2dBufContainerVaddrCompare b1 b2 && ! G2dBufContainerVaddrCompare b2 b1

/-- The probe built by `G2dBufRepo::isVaddrG2dBufNoLock`: a temporary
`g2d_buf { .buf_handle = nullptr, .buf_vaddr = vaddr, .buf_paddr = 0,
.buf_size = 1 }`. -/
def gProbe (vaddr : Nat) : g2d_buf := ⟨0, vaddr, 1⟩

/-- Model of class `G2dBufRepo`: the ordered set of registered containers
(as its element list) and the `allocCount` field. -/
structure G2dBufRepo where
  allocSet : List G2dBufContainer
  allocCount : Nat
deriving DecidableEq, Repr

/-- Model of `G2dBufRepo::isVaddrG2dBufNoLock`: `allocSet.find` with the
unit-size probe at `vaddr`; `some e` models `true` with out-parameters
`e.g2dBuf` and `e.cacheable`, `none` models `false` with a null `b`. -/
def G2dBufRepo.isVaddrG2dBufNoLock (r : G2dBufRepo) (vaddr : Nat) :
    Option G2dBufContainer :=
  r.allocSet.find? (fun e => g2dBufEquiv (gProbe vaddr) e.g2dBuf)

/-- Model of `G2dBufRepo::registerDescriptor`.  `none` models a thrown
assertion: the pre-assert that the address is not yet found, the post-assert
`allocCount == allocSet.size()` (which fires when `insert` refused an
equivalent element), and the post-assert that the address is now found. -/
def G2dBufRepo.registerDescriptor (r : G2dBufRepo) (b : g2d_buf)
    (cacheable : Bool) : Option G2dBufRepo :=
  if (r.isVaddrG2dBufNoLock b.buf_vaddr).isSome then none
  else
    let s := if r.allocSet.any (fun e => g2dBufEquiv b e.g2dBuf)
             then r.allocSet
             else r.allocSet ++ [⟨b, cacheable⟩]
    let c := r.allocCount + 1
    if c = s.length then
      if ((G2dBufRepo.mk s c).isVaddrG2dBufNoLock b.buf_vaddr).isSome
      then some ⟨s, c⟩
      else none
    else none

/-- Model of `G2dBufRepo::unregisterDescriptor`.  The erase key is the full
descriptor `b` (not a unit probe), so `erase` removes the registered
containers comparator-equivalent to `b`. -/
def G2dBufRepo.unregisterDescriptor (r : G2dBufRepo) (b : g2d_buf) :
    Option G2dBufRepo :=
  if (r.isVaddrG2dBufNoLock b.buf_vaddr).isSome then
    let s := r.allocSet.filter (fun e => ! g2dBufEquiv b e.g2dBuf)
    let c := r.allocCount - 1
    if c = s.length then
      if ((G2dBufRepo.mk s c).isVaddrG2dBufNoLock b.buf_vaddr).isSome
      then none
      else some ⟨s, c⟩
    else none
  else none

/-- Model of class `G2dBufPoolInstance`: its six scalar fields and the cache
vector. -/
structure G2dBufPoolInstance where
  cacheEnabled : Bool
  cacheable : Bool
  cacheUsageMax : Nat
  cacheAllocCountMax : Nat
  cacheUsage : Nat
  cacheAllocCount : Nat
  cacheVector : List g2d_buf
deriving DecidableEq, Repr

def USAGE_MAX_DEFAULT : Nat := 64 * 1024 * 1024

def ALLOC_COUNT_MAX_DEFAULT : Nat := 16

/-- `SIZE_MAX` for the 64-bit `size_t` of the target. -/
def SIZE_MAX : Nat := 2 ^ 64 - 1

/-- Model of the `G2dBufPoolInstance(bool _cacheable)` constructor. -/
def G2dBufPoolInstance.mkInitial (c : Bool) : G2dBufPoolInstance :=
  ⟨false, c, USAGE_MAX_DEFAULT, ALLOC_COUNT_MAX_DEFAULT, 0, 0, []⟩

/-- The scan loop of `G2dBufPoolInstance::alloc`, carrying `matchHeadroom`
and the matched iterator (`none` models `cacheVector.end()`, `some (i, b)`
the iterator at index `i` on element `b`).  The source updates the best match
and then tests `matchHeadroom == 0` to break; here the two branches of the
update are unfolded, which yields the same control flow: after an improving
update the loop breaks exactly when the new headroom is `0`, after a
non-improving step exactly when the carried headroom is `0`. -/
def allocScan (size : Nat) :
    List g2d_buf → Nat → Option (Nat × g2d_buf) → Nat → Option (Nat × g2d_buf)
  | [], _, matchIt, _ => matchIt
  | b :: rest, matchHeadroom, matchIt, i =>
    if size ≤ b.buf_size then
      if b.buf_size - size ≤ size ∧ b.buf_size - size < matchHeadroom then
        if b.buf_size - size = 0 then some (i, b)
        else allocScan size rest (b.buf_size - size) (some (i, b)) (i + 1)
      else
        if matchHeadroom = 0 then matchIt
        else allocScan size rest matchHeadroom matchIt (i + 1)
    else allocScan size rest matchHeadroom matchIt (i + 1)

/-- Outcome of the cache-side part of `G2dBufPoolInstance::alloc`:
`hit` returns a cached buffer and the updated lane, `miss` is the
`goto alloc_buff` fall-through to `g2d_alloc`, `err` a thrown assertion. -/
inductive AllocOut where
  | hit (buf : g2d_buf) (l : G2dBufPoolInstance)
  | miss
  | err
deriving DecidableEq, Repr

/-- Cache-side part of `G2dBufPoolInstance::alloc(size)`: the two early
fall-throughs, the scan, erasure of the matched entry, the counter updates
and the three post-assertions. -/
def G2dBufPoolInstance.allocFromCache (l : G2dBufPoolInstance) (size : Nat) :
    AllocOut :=
  if l.cacheEnabled = false then .miss
  else if l.cacheVector.isEmpty then .miss
  else
    match allocScan size l.cacheVector SIZE_MAX none 0 with
    | none => .miss
    | some (i, _) =>
      match l.cacheVector[i]? with
      | none => .err
      | some buf =>
        if l.cacheAllocCount - 1 = (l.cacheVector.eraseIdx i).length ∧
            l.cacheUsage - buf.buf_size < l.cacheUsageMax ∧
            l.cacheAllocCount - 1 < l.cacheAllocCountMax then
          .hit buf { l with cacheVector := l.cacheVector.eraseIdx i,
                            cacheUsage := l.cacheUsage - buf.buf_size,
                            cacheAllocCount := l.cacheAllocCount - 1 }
        else .err

/-- Model of `G2dBufPoolInstance::alloc(size)`, with the reply of the
underlying `g2d_alloc(size, cacheable)` passed in as `fresh`.  The outer
`Option` models assertion failure; the inner one is the returned buffer
(`none` models the null pointer returned on allocator exhaustion). -/
def G2dBufPoolInstance.alloc (l : G2dBufPoolInstance) (size : Nat)
    (fresh : Option g2d_buf) : Option (Option g2d_buf × G2dBufPoolInstance) :=
  match l.allocFromCache size with
  | .hit buf l1 => some (some buf, l1)
  | .miss => some (fresh, l)
  | .err => none

/-- The eviction loop of `G2dBufPoolInstance::free`: while inserting would
violate a ceiling, pop the front (oldest) cache entry, releasing it with
`g2d_free`, and maintain the counters.  `none` models a thrown assertion
(`!cacheVector.empty()`, or `cacheAllocCount == cacheVector.size()` after a
pop). -/
def evictOldest (size umax cmax : Nat) :
    List g2d_buf → Nat → Nat → Option (List g2d_buf × Nat × Nat)
  | [], usage, count =>
    if count + 1 > cmax ∨ usage + size > umax then none
    else some ([], usage, count)
  | b :: rest, usage, count =>
    if count + 1 > cmax ∨ usage + size > umax then
      if count - 1 = rest.length then
        evictOldest size umax cmax rest (usage - b.buf_size) (count - 1)
      else none
    else some (b :: rest, usage, count)

/-- Outcome of `G2dBufPoolInstance::free`: the buffer was appended to the
cache (after evictions) with the lane updated, or it was released directly to
`g2d_free` with the lane untouched, or an assertion fired. -/
inductive FreeOut where
  | cached (l : G2dBufPoolInstance)
  | bypass
  | err
deriving DecidableEq, Repr

/-- Model of `G2dBufPoolInstance::free(buf)`: the three `goto free_buf`
early-outs, the eviction loop, the tail append, the counter updates and the
three post-assertions. -/
def G2dBufPoolInstance.free (l : G2dBufPoolInstance) (buf : g2d_buf) :
    FreeOut :=
  if l.cacheEnabled = false then .bypass
  else if l.cacheAllocCountMax < 1 then .bypass
  else if l.cacheUsageMax < buf.buf_size then .bypass
  else
    match evictOldest buf.buf_size l.cacheUsageMax l.cacheAllocCountMax
        l.cacheVector l.cacheUsage l.cacheAllocCount with
    | none => .err
    | some (v, u, c) =>
      if c + 1 = (v ++ [buf]).length ∧ u + buf.buf_size ≤ l.cacheUsageMax ∧
          c + 1 ≤ l.cacheAllocCountMax then
        .cached { l with cacheVector := v ++ [buf],
                         cacheUsage := u + buf.buf_size,
                         cacheAllocCount := c + 1 }
      else .err

/-- The loop of `G2dBufPoolInstance::drainCacheNoLock`, which pops the back
of the vector releasing each entry; iterating over the reversed vector
performs the same subtractions in the same order. -/
def drainSteps : List g2d_buf → Nat → Nat → Nat × Nat
  | [], u, c => (u, c)
  | b :: rest, u, c => drainSteps rest (u - b.buf_size) (c - 1)

/-- Model of `G2dBufPoolInstance::drainCacheNoLock`: empty the vector, then
assert both counters ended at zero. -/
def G2dBufPoolInstance.drainCacheNoLock (l : G2dBufPoolInstance) :
    Option G2dBufPoolInstance :=
  match drainSteps l.cacheVector.reverse l.cacheUsage l.cacheAllocCount with
  | (u, c) =>
    if c = 0 ∧ u = 0 then
      some { l with cacheVector := [], cacheUsage := u, cacheAllocCount := c }
    else none

/-- Model of `G2dBufPoolInstance::setUseCache(flag)`: drain when turning an
enabled cache off, then store the flag. -/
def G2dBufPoolInstance.setUseCache (l : G2dBufPoolInstance) (flag : Bool) :
    Option G2dBufPoolInstance :=
  if flag = false ∧ l.cacheEnabled = true then
    match l.drainCacheNoLock with
    | none => none
    | some l1 => some { l1 with cacheEnabled := flag }
  else some { l with cacheEnabled := flag }

/-- Model of `G2dBufPoolInstance::setCacheConfig`: drain unconditionally,
then install the new ceilings. -/
def G2dBufPoolInstance.setCacheConfig (l : G2dBufPoolInstance)
    (umax cmax : Nat) : Option G2dBufPoolInstance :=
  match l.drainCacheNoLock with
  | none => none
  | some l1 => some { l1 with cacheUsageMax := umax, cacheAllocCountMax := cmax }

/-- Model of class `G2dBufPool`: the two lanes. -/
structure G2dBufPool where
  cachedPool : G2dBufPoolInstance
  uncachedPool : G2dBufPoolInstance
deriving DecidableEq, Repr

/-- Model of class `Imx2dGAllocator`: enable reference count, aggregate
counters, the repository and the pool. -/
structure Imx2dGAllocator where
  enableCount : Nat
  allocCount : Nat
  usage : Nat
  g2dBufRepo : G2dBufRepo
  g2dBufPool : G2dBufPool
deriving DecidableEq, Repr

/-- Model of the `Imx2dGAllocator` constructor: zero counters, empty
repository, two freshly constructed lanes. -/
def Imx2dGAllocator.mkInitial : Imx2dGAllocator :=
  ⟨0, 0, 0, ⟨[], 0⟩,
    ⟨G2dBufPoolInstance.mkInitial true, G2dBufPoolInstance.mkInitial false⟩⟩

/-- Model of `Imx2dGAllocator::enable`. -/
def Imx2dGAllocator.enable (s : Imx2dGAllocator) : Option Imx2dGAllocator :=
  if s.enableCount + 1 = 1 then
    match s.g2dBufPool.cachedPool.setUseCache true with
    | none => none
    | some cp =>
      match s.g2dBufPool.uncachedPool.setUseCache true with
      | none => none
      | some up =>
        some { s with enableCount := s.enableCount + 1, g2dBufPool := ⟨cp, up⟩ }
  else some { s with enableCount := s.enableCount + 1 }

/-- Model of `Imx2dGAllocator::disable`; `none` on the
`IMX2D_Assert(enableCount > 0)` violation or a drain assertion. -/
def Imx2dGAllocator.disable (s : Imx2dGAllocator) : Option Imx2dGAllocator :=
  if s.enableCount = 0 then none
  else
    if s.enableCount - 1 = 0 then
      match s.g2dBufPool.cachedPool.setUseCache false with
      | none => none
      | some cp =>
        match s.g2dBufPool.uncachedPool.setUseCache false with
        | none => none
        | some up =>
          some { s with enableCount := s.enableCount - 1,
                        g2dBufPool := ⟨cp, up⟩ }
    else some { s with enableCount := s.enableCount - 1 }

/-- Model of `Imx2dGAllocator::alloc(size, cacheable, handle)`: route to the
lane, then on a non-null buffer register it and bump the aggregate counters.
The returned `Option g2d_buf` carries both out-values of the source (the
mapped address `buf->buf_vaddr` and the handle `buf`); `none` models the
null address with the null handle out-parameter. -/
def Imx2dGAllocator.alloc (s : Imx2dGAllocator) (size : Nat)
    (cacheable : Bool) (fresh : Option g2d_buf) :
    Option (Option g2d_buf × Imx2dGAllocator) :=
  match (if cacheable then s.g2dBufPool.cachedPool
         else s.g2dBufPool.uncachedPool).alloc size fresh with
  | none => none
  | some (res, lane) =>
    let s1 := if cacheable
              then { s with g2dBufPool := ⟨lane, s.g2dBufPool.uncachedPool⟩ }
              else { s with g2dBufPool := ⟨s.g2dBufPool.cachedPool, lane⟩ }
    match res with
    | none => some (none, s1)
    | some buf =>
      match s1.g2dBufRepo.registerDescriptor buf cacheable with
      | none => none
      | some repo =>
        some (some buf,
          { s1 with g2dBufRepo := repo, allocCount := s1.allocCount + 1,
                    usage := s1.usage + buf.buf_size })

/-- Model of `Imx2dGAllocator::free(handle)`: recover the cacheable
attribute by registry lookup, assert the handle matches the registered
descriptor, unregister, update the aggregate counters, and hand the buffer
to the lane of its cacheability class. -/
def Imx2dGAllocator.free (s : Imx2dGAllocator) (buf : g2d_buf) :
    Option Imx2dGAllocator :=
  match s.g2dBufRepo.isVaddrG2dBufNoLock buf.buf_vaddr with
  | none => none
  | some e =>
    if e.g2dBuf ≠ buf then none
    else
      match s.g2dBufRepo.unregisterDescriptor buf with
      | none => none
      | some repo =>
        let s1 := { s with g2dBufRepo := repo,
                           allocCount := s.allocCount - 1,
                           usage := s.usage - buf.buf_size }
        if e.cacheable then
          match s1.g2dBufPool.cachedPool.free buf with
          | .cached l =>
            some { s1 with g2dBufPool := ⟨l, s1.g2dBufPool.uncachedPool⟩ }
          | .bypass => some s1
          | .err => none
        else
          match s1.g2dBufPool.uncachedPool.free buf with
          | .cached l =>
            some { s1 with g2dBufPool := ⟨s1.g2dBufPool.cachedPool, l⟩ }
          | .bypass => some s1
          | .err => none

/-- Model of `Imx2dGAllocator::setCacheConfig`: identical ceilings to both
lanes. -/
def Imx2dGAllocator.setCacheConfig (s : Imx2dGAllocator) (umax cmax : Nat) :
    Option Imx2dGAllocator :=
  match s.g2dBufPool.cachedPool.setCacheConfig umax cmax with
  | none => none
  | some cp =>
    match s.g2dBufPool.uncachedPool.setCacheConfig umax cmax with
    | none => none
    | some up => some { s with g2dBufPool := ⟨cp, up⟩ }

/-- One lane-level operation, for stating properties of operation
sequences on a pool lane. -/
inductive PoolOp where
  | alloc (size : Nat) (fresh : Option g2d_buf)
  | free (buf : g2d_buf)
  | setUseCache (flag : Bool)
  | setCacheConfig (umax cmax : Nat)
deriving DecidableEq, Repr

/-- Apply one operation to a lane; `none` models a thrown assertion. -/
def applyOp (l : G2dBufPoolInstance) : PoolOp → Option G2dBufPoolInstance
  | .alloc size fresh =>
    match l.alloc size fresh with
    | none => none
    | some (_, l1) => some l1
  | .free buf =>
    match l.free buf with
    | .cached l1 => some l1
    | .bypass => some l
    | .err => none
  | .setUseCache flag => l.setUseCache flag
  | .setCacheConfig umax cmax => l.setCacheConfig umax cmax

/-- Apply a sequence of operations to a lane. -/
def applyOps (l : G2dBufPoolInstance) : List PoolOp → Option G2dBufPoolInstance
  | [] => some l
  | op :: ops =>
    match applyOp l op with
    | none => none
    | some l1 => applyOps l1 ops

/-- A candidate cached buffer qualifies for a request of `size` bytes when
its size is at least `size` and its headroom is at most `size`. -/
def qualifies (size : Nat) (b : g2d_buf) : Prop :=
  size ≤ b.buf_size ∧ b.buf_size - size ≤ size

instance (size : Nat) (b : g2d_buf) : Decidable (qualifies size b) := by
  unfold qualifies; infer_instance

/-- The address `a` lies in the (half-open) range of buffer `b`. -/
def inRange (b : g2d_buf) (a : Nat) : Prop :=
  b.buf_vaddr ≤ a ∧ a < b.buf_vaddr + b.buf_size

instance (b : g2d_buf) (a : Nat) : Decidable (inRange b a) := by
  unfold inRange; infer_instance

/-- The lane's redundant counters agree with the cache vector. -/
def G2dBufPoolInstance.Consistent (l : G2dBufPoolInstance) : Prop :=
  l.cacheUsage = (l.cacheVector.map g2d_buf.buf_size).sum ∧
  l.cacheAllocCount = l.cacheVector.length

instance (l : G2dBufPoolInstance) : Decidable l.Consistent := by
  unfold G2dBufPoolInstance.Consistent; infer_instance

/-- The lane invariant: consistent counters within both ceilings. -/
def G2dBufPoolInstance.Inv (l : G2dBufPoolInstance) : Prop :=
  l.Consistent ∧ l.cacheUsage ≤ l.cacheUsageMax ∧
  l.cacheAllocCount ≤ l.cacheAllocCountMax

instance (l : G2dBufPoolInstance) : Decidable l.Inv := by
  unfold G2dBufPoolInstance.Inv; infer_instance

/-- A disabled lane caches nothing. -/
def G2dBufPoolInstance.DisabledEmpty (l : G2dBufPoolInstance) : Prop :=
  l.cacheEnabled = false →
  l.cacheVector = [] ∧ l.cacheUsage = 0 ∧ l.cacheAllocCount = 0

instance (l : G2dBufPoolInstance) : Decidable l.DisabledEmpty := by
  unfold G2dBufPoolInstance.DisabledEmpty; infer_instance

/-- Concrete repository used to test `unregisterDescriptor` against an alias:
a single registered buffer with range `[100, 110)`. -/
def ceRepo : G2dBufRepo := ⟨[⟨⟨1, 100, 10⟩, true⟩], 1⟩

/-- A descriptor that was never registered in `ceRepo`, whose range
`[105, 107)` lies inside the registered buffer's range. -/
def ceBuf : g2d_buf := ⟨2, 105, 2⟩

/-! ### List helpers -/

theorem mem_of_getElem_opt (v : List g2d_buf) :
    ∀ (i : Nat) (b : g2d_buf), v[i]? = some b → b ∈ v := by
  induction v with
  | nil => intro i b h; simp at h
  | cons x rest ih =>
    intro i b h
    cases i with
    | zero => simp at h; simp [h]
    | succ j =>
      simp only [List.getElem?_cons_succ] at h
      exact List.mem_cons_of_mem _ (ih j b h)

theorem length_eraseIdx_opt (v : List g2d_buf) :
    ∀ (i : Nat) (b : g2d_buf), v[i]? = some b →
    (v.eraseIdx i).length + 1 = v.length := by
  induction v with
  | nil => intro i b h; simp at h
  | cons x rest ih =>
    intro i b h
    cases i with
    | zero => simp [List.eraseIdx_cons_zero]
    | succ j =>
      simp only [List.getElem?_cons_succ] at h
      simp only [List.eraseIdx_cons_succ, List.length_cons]
      have := ih j b h
      omega

theorem sum_eraseIdx_opt (v : List g2d_buf) :
    ∀ (i : Nat) (b : g2d_buf), v[i]? = some b →
    ((v.eraseIdx i).map g2d_buf.buf_size).sum + b.buf_size =
      (v.map g2d_buf.buf_size).sum := by
  induction v with
  | nil => intro i b h; simp at h
  | cons x rest ih =>
    intro i b h
    cases i with
    | zero =>
      simp at h
      subst h
      simp [List.eraseIdx_cons_zero]
      omega
    | succ j =>
      simp only [List.getElem?_cons_succ] at h
      simp only [List.eraseIdx_cons_succ, List.map_cons, List.sum_cons]
      have := ih j b h
      omega

/-! ### The best-fit scan -/

/-- Full characterization of the scan loop of `alloc`, generalized over the
carried state: `mh` is `matchHeadroom`, `mi` the match iterator, `i0` the
index of the first unscanned element.  A `none` result means no remaining
candidate qualified (and none had been found); a `some (j, bsel)` result is a
qualifying buffer of minimal headroom among the remaining candidates, either
the carried match or located at index `j` of the remaining list. -/
theorem allocScan_spec (size : Nat) (hsz : size < SIZE_MAX) :
    ∀ (v : List g2d_buf) (mh : Nat) (mi : Option (Nat × g2d_buf)) (i0 : Nat),
    mh ≠ 0 →
    (∀ j b0, mi = some (j, b0) → qualifies size b0 ∧ b0.buf_size - size = mh) →
    (mi = none → mh = SIZE_MAX) →
    ((allocScan size v mh mi i0 = none →
        mi = none ∧ ∀ b ∈ v, ¬ qualifies size b) ∧
     (∀ j bsel, allocScan size v mh mi i0 = some (j, bsel) →
        qualifies size bsel ∧ bsel.buf_size - size ≤ mh ∧
        (∀ b ∈ v, qualifies size b →
          bsel.buf_size - size ≤ b.buf_size - size) ∧
        (mi = some (j, bsel) ∨ (i0 ≤ j ∧ v[j - i0]? = some bsel)))) := by
  intro v
  induction v with
  | nil =>
    intro mh mi i0 hmh hsome hnone
    constructor
    · intro h
      simp only [allocScan] at h
      exact ⟨h, by simp⟩
    · intro j bsel h
      simp only [allocScan] at h
      rcases hsome j bsel h with ⟨hq, he⟩
      exact ⟨hq, le_of_eq he, by simp, Or.inl h⟩
  | cons b rest ih =>
    intro mh mi i0 hmh hsome hnone
    by_cases hbs : size ≤ b.buf_size
    · by_cases himp : b.buf_size - size ≤ size ∧ b.buf_size - size < mh
      · by_cases h0 : b.buf_size - size = 0
        · -- exact match: the loop breaks immediately with this element
          have hred : allocScan size (b :: rest) mh mi i0 = some (i0, b) := by
            simp only [allocScan]
            rw [if_pos hbs, if_pos himp, if_pos h0]
          constructor
          · intro h
            rw [hred] at h
            simp at h
          · intro j bsel h
            rw [hred] at h
            simp only [Option.some.injEq, Prod.mk.injEq] at h
            obtain ⟨rfl, rfl⟩ := h
            refine ⟨⟨hbs, himp.1⟩, ?_, ?_, ?_⟩
            · rw [h0]; exact Nat.zero_le mh
            · intro b' hb' hq'
              rw [h0]; exact Nat.zero_le _
            · right
              refine ⟨le_refl _, ?_⟩
              simp
        · -- improving, non-exact match: carry the new best and recurse
          have hred : allocScan size (b :: rest) mh mi i0 =
              allocScan size rest (b.buf_size - size) (some (i0, b)) (i0 + 1) := by
            simp only [allocScan]
            rw [if_pos hbs, if_pos himp, if_neg h0]
          have hsome' : ∀ j b0,
              (some (i0, b) : Option (Nat × g2d_buf)) = some (j, b0) →
              qualifies size b0 ∧ b0.buf_size - size = b.buf_size - size := by
            intro j b0 he
            simp only [Option.some.injEq, Prod.mk.injEq] at he
            obtain ⟨-, rfl⟩ := he
            exact ⟨⟨hbs, himp.1⟩, rfl⟩
          have hnone' : (some (i0, b) : Option (Nat × g2d_buf)) = none →
              b.buf_size - size = SIZE_MAX := by
            intro he; simp at he
          obtain ⟨IH1, IH2⟩ := ih (b.buf_size - size) (some (i0, b)) (i0 + 1)
            h0 hsome' hnone'
          constructor
          · intro h
            rw [hred] at h
            obtain ⟨hmi', -⟩ := IH1 h
            simp at hmi'
          · intro j bsel h
            rw [hred] at h
            obtain ⟨hq, hle, hmin, hpos⟩ := IH2 j bsel h
            refine ⟨hq, le_trans hle (le_of_lt himp.2), ?_, ?_⟩
            · intro b' hb' hq'
              rcases List.mem_cons.mp hb' with rfl | hmem
              · exact hle
              · exact hmin b' hmem hq'
            · rcases hpos with heq | ⟨hij, hidx⟩
              · simp only [Option.some.injEq, Prod.mk.injEq] at heq
                obtain ⟨rfl, rfl⟩ := heq
                right
                refine ⟨le_refl _, ?_⟩
                simp
              · right
                refine ⟨le_trans (Nat.le_succ i0) hij, ?_⟩
                have hj : j - i0 = (j - (i0 + 1)) + 1 := by omega
                rw [hj, List.getElem?_cons_succ]
                exact hidx
      · -- non-improving candidate; the loop cannot break since mh ≠ 0
        have hred : allocScan size (b :: rest) mh mi i0 =
            allocScan size rest mh mi (i0 + 1) := by
          simp only [allocScan]
          rw [if_pos hbs, if_neg himp, if_neg hmh]
        obtain ⟨IH1, IH2⟩ := ih mh mi (i0 + 1) hmh hsome hnone
        constructor
        · intro h
          rw [hred] at h
          obtain ⟨hmi, hall⟩ := IH1 h
          refine ⟨hmi, ?_⟩
          intro b' hb'
          rcases List.mem_cons.mp hb' with rfl | hmem
          · intro hq'
            have hmhmax : mh = SIZE_MAX := hnone hmi
            have hlt : b'.buf_size - size < mh := by
              rw [hmhmax]
              exact lt_of_le_of_lt hq'.2 hsz
            exact himp ⟨hq'.2, hlt⟩
          · exact hall b' hmem
        · intro j bsel h
          rw [hred] at h
          obtain ⟨hq, hle, hmin, hpos⟩ := IH2 j bsel h
          refine ⟨hq, hle, ?_, ?_⟩
          · intro b' hb' hq'
            rcases List.mem_cons.mp hb' with rfl | hmem
            · have hge : mh ≤ b'.buf_size - size := by
                by_contra hcon
                push_neg at hcon
                exact himp ⟨hq'.2, hcon⟩
              exact le_trans hle hge
            · exact hmin b' hmem hq'
          · rcases hpos with heq | ⟨hij, hidx⟩
            · exact Or.inl heq
            · right
              refine ⟨le_trans (Nat.le_succ i0) hij, ?_⟩
              have hj : j - i0 = (j - (i0 + 1)) + 1 := by omega
              rw [hj, List.getElem?_cons_succ]
              exact hidx
    · -- candidate smaller than the request: skipped by the size test
      have hred : allocScan size (b :: rest) mh mi i0 =
          allocScan size rest mh mi (i0 + 1) := by
        simp only [allocScan]
        rw [if_neg hbs]
      obtain ⟨IH1, IH2⟩ := ih mh mi (i0 + 1) hmh hsome hnone
      constructor
      · intro h
        rw [hred] at h
        obtain ⟨hmi, hall⟩ := IH1 h
        refine ⟨hmi, ?_⟩
        intro b' hb'
        rcases List.mem_cons.mp hb' with rfl | hmem
        · intro hq'; exact hbs hq'.1
        · exact hall b' hmem
      · intro j bsel h
        rw [hred] at h
        obtain ⟨hq, hle, hmin, hpos⟩ := IH2 j bsel h
        refine ⟨hq, hle, ?_, ?_⟩
        · intro b' hb' hq'
          rcases List.mem_cons.mp hb' with rfl | hmem
          · exact absurd hq'.1 hbs
          · exact hmin b' hmem hq'
        · rcases hpos with heq | ⟨hij, hidx⟩
          · exact Or.inl heq
          · right
            refine ⟨le_trans (Nat.le_succ i0) hij, ?_⟩
            have hj : j - i0 = (j - (i0 + 1)) + 1 := by omega
            rw [hj, List.getElem?_cons_succ]
            exact hidx

/-! ### Cache-allocation lemmas -/

/-- Forward construction of a cache hit: on an enabled, invariant-satisfying
lane holding at least one qualifying buffer, `allocFromCache` returns a
qualifying buffer of minimal headroom, erased from the vector, with the
counters decreased accordingly. -/
theorem allocFromCache_hit_of_qualifies (l : G2dBufPoolInstance) (size : Nat)
    (hinv : l.Inv) (hen : l.cacheEnabled = true) (hpos : 0 < size)
    (hsz : size < SIZE_MAX)
    (hex : ∃ b ∈ l.cacheVector, qualifies size b) :
    ∃ buf i, l.cacheVector[i]? = some buf ∧ qualifies size buf ∧
      (∀ b ∈ l.cacheVector, qualifies size b →
        buf.buf_size - size ≤ b.buf_size - size) ∧
      l.allocFromCache size = .hit buf
        { l with cacheVector := l.cacheVector.eraseIdx i,
                 cacheUsage := l.cacheUsage - buf.buf_size,
                 cacheAllocCount := l.cacheAllocCount - 1 } := by
  obtain ⟨⟨husage, hcount⟩, humax, hcmax⟩ := hinv
  have hMAX : (SIZE_MAX : Nat) ≠ 0 := by norm_num [SIZE_MAX]
  obtain ⟨spec1, spec2⟩ := allocScan_spec size hsz l.cacheVector SIZE_MAX
    none 0 hMAX (by intro j b0 h; exact absurd h (by simp)) (fun _ => rfl)
  cases hscan : allocScan size l.cacheVector SIZE_MAX none 0 with
  | none =>
    obtain ⟨-, hall⟩ := spec1 hscan
    obtain ⟨b, hb, hq⟩ := hex
    exact absurd hq (hall b hb)
  | some p =>
    obtain ⟨j, bsel⟩ := p
    obtain ⟨hq, -, hmin, hpos'⟩ := spec2 j bsel hscan
    have hget : l.cacheVector[j]? = some bsel := by
      rcases hpos' with heq | ⟨-, hidx⟩
      · exact absurd heq (by simp)
      · simpa using hidx
    refine ⟨bsel, j, hget, hq, hmin, ?_⟩
    have hne : l.cacheVector.isEmpty = false := by
      cases hv : l.cacheVector with
      | nil => rw [hv] at hget; simp at hget
      | cons x xs => simp
    have hlen : (l.cacheVector.eraseIdx j).length + 1 = l.cacheVector.length :=
      length_eraseIdx_opt l.cacheVector j bsel hget
    have hsum : ((l.cacheVector.eraseIdx j).map g2d_buf.buf_size).sum
        + bsel.buf_size = (l.cacheVector.map g2d_buf.buf_size).sum :=
      sum_eraseIdx_opt l.cacheVector j bsel hget
    have hbpos : 1 ≤ bsel.buf_size := le_trans hpos hq.1
    have hguard : l.cacheAllocCount - 1 = (l.cacheVector.eraseIdx j).length ∧
        l.cacheUsage - bsel.buf_size < l.cacheUsageMax ∧
        l.cacheAllocCount - 1 < l.cacheAllocCountMax := by
      refine ⟨by omega, by omega, by omega⟩
    unfold G2dBufPoolInstance.allocFromCache
    rw [if_neg (by simp [hen]), if_neg (by simp [hne]), hscan]
    simp only [hget]
    rw [if_pos hguard]

/-- Inversion of a cache hit: everything `allocFromCache` guarantees when it
returns `.hit`. -/
theorem allocFromCache_hit_spec (l : G2dBufPoolInstance) (size : Nat)
    (buf : g2d_buf) (l1 : G2dBufPoolInstance)
    (h : l.allocFromCache size = .hit buf l1) :
    l.cacheEnabled = true ∧
    ∃ i, l.cacheVector[i]? = some buf ∧
      l1 = { l with cacheVector := l.cacheVector.eraseIdx i,
                    cacheUsage := l.cacheUsage - buf.buf_size,
                    cacheAllocCount := l.cacheAllocCount - 1 } ∧
      l.cacheAllocCount - 1 = (l.cacheVector.eraseIdx i).length ∧
      l.cacheUsage - buf.buf_size < l.cacheUsageMax ∧
      l.cacheAllocCount - 1 < l.cacheAllocCountMax := by
  by_cases hen : l.cacheEnabled = false
  · unfold G2dBufPoolInstance.allocFromCache at h
    rw [if_pos hen] at h
    exact absurd h (by simp)
  · have hentrue : l.cacheEnabled = true := by
      cases hE : l.cacheEnabled
      · exact absurd hE hen
      · rfl
    unfold G2dBufPoolInstance.allocFromCache at h
    rw [if_neg hen] at h
    split at h
    · exact absurd h (by simp)
    · split at h
      · exact absurd h (by simp)
      · next i b0 hscan =>
        split at h
        · exact absurd h (by simp)
        · next buf0 hget =>
          split at h
          · next hguard =>
            rw [AllocOut.hit.injEq] at h
            obtain ⟨rfl, rfl⟩ := h
            exact ⟨hentrue, i, hget, rfl, hguard⟩
          · exact absurd h (by simp)

/-- When no cached buffer qualifies (in particular when the cache is disabled
or empty), the allocation falls through to the underlying allocator. -/
theorem allocFromCache_miss_of_no_qualifies (l : G2dBufPoolInstance)
    (size : Nat) (hsz : size < SIZE_MAX)
    (hall : ∀ b ∈ l.cacheVector, ¬ qualifies size b) :
    l.allocFromCache size = .miss := by
  by_cases hen : l.cacheEnabled = false
  · unfold G2dBufPoolInstance.allocFromCache
    rw [if_pos hen]
  · by_cases hemp : l.cacheVector.isEmpty
    · unfold G2dBufPoolInstance.allocFromCache
      rw [if_neg hen, if_pos hemp]
    · have hMAX : (SIZE_MAX : Nat) ≠ 0 := by norm_num [SIZE_MAX]
      obtain ⟨spec1, spec2⟩ := allocScan_spec size hsz l.cacheVector SIZE_MAX
        none 0 hMAX (by intro j b0 h; exact absurd h (by simp)) (fun _ => rfl)
      cases hscan : allocScan size l.cacheVector SIZE_MAX none 0 with
      | none =>
        unfold G2dBufPoolInstance.allocFromCache
        rw [if_neg hen, if_neg hemp, hscan]
      | some p =>
        obtain ⟨j, bsel⟩ := p
        obtain ⟨hq, -, -, hpos'⟩ := spec2 j bsel hscan
        have hget : l.cacheVector[j]? = some bsel := by
          rcases hpos' with heq | ⟨-, hidx⟩
          · exact absurd heq (by simp)
          · simpa using hidx
        have hmem : bsel ∈ l.cacheVector := mem_of_getElem_opt _ j bsel hget
        exact absurd hq (hall bsel hmem)

/-- A disabled lane never serves from the cache. -/
theorem allocFromCache_disabled (l : G2dBufPoolInstance) (size : Nat)
    (hen : l.cacheEnabled = false) : l.allocFromCache size = .miss := by
  unfold G2dBufPoolInstance.allocFromCache
  rw [if_pos hen]

/-! ### Eviction-loop lemmas -/

/-- If inserting does not violate a ceiling, the eviction loop is a no-op. -/
theorem evictOldest_noop (size umax cmax : Nat) (v : List g2d_buf) (u c : Nat)
    (hc : ¬ (c + 1 > cmax ∨ u + size > umax)) :
    evictOldest size umax cmax v u c = some (v, u, c) := by
  cases v with
  | nil => unfold evictOldest; rw [if_neg hc]
  | cons b rest => unfold evictOldest; rw [if_neg hc]

/-- The eviction loop only drops a prefix of the vector (oldest entries
first). -/
theorem evictOldest_drop (size umax cmax : Nat) :
    ∀ (v : List g2d_buf) (u c : Nat) (v1 : List g2d_buf) (u1 c1 : Nat),
    evictOldest size umax cmax v u c = some (v1, u1, c1) →
    ∃ d, v1 = v.drop d := by
  intro v
  induction v with
  | nil =>
    intro u c v1 u1 c1 h
    unfold evictOldest at h
    split at h
    · exact absurd h (by simp)
    · simp only [Option.some.injEq, Prod.mk.injEq] at h
      exact ⟨0, h.1.symm⟩
  | cons b rest ih =>
    intro u c v1 u1 c1 h
    unfold evictOldest at h
    split at h
    · split at h
      · obtain ⟨d, hd⟩ := ih _ _ _ _ _ h
        exact ⟨d + 1, by simpa using hd⟩
      · exact absurd h (by simp)
    · simp only [Option.some.injEq, Prod.mk.injEq] at h
      exact ⟨0, h.1.symm⟩

/-- The eviction loop keeps the counters consistent with the vector. -/
theorem evictOldest_consistent (size umax cmax : Nat) :
    ∀ (v : List g2d_buf) (u c : Nat) (v1 : List g2d_buf) (u1 c1 : Nat),
    u = (v.map g2d_buf.buf_size).sum → c = v.length →
    evictOldest size umax cmax v u c = some (v1, u1, c1) →
    u1 = (v1.map g2d_buf.buf_size).sum ∧ c1 = v1.length := by
  intro v
  induction v with
  | nil =>
    intro u c v1 u1 c1 hu hc h
    unfold evictOldest at h
    split at h
    · exact absurd h (by simp)
    · simp only [Option.some.injEq, Prod.mk.injEq] at h
      obtain ⟨h1, h2, h3⟩ := h
      subst h1; subst h2; subst h3
      exact ⟨hu, hc⟩
  | cons b rest ih =>
    intro u c v1 u1 c1 hu hc h
    simp only [List.map_cons, List.sum_cons] at hu
    simp only [List.length_cons] at hc
    unfold evictOldest at h
    split at h
    · split at h
      · exact ih _ _ _ _ _ (by omega) (by omega) h
      · exact absurd h (by simp)
    · simp only [Option.some.injEq, Prod.mk.injEq] at h
      obtain ⟨h1, h2, h3⟩ := h
      subst h1; subst h2; subst h3
      simp [hu, hc]

/-- On consistent input within reach of the ceilings (count ceiling at least
one, size within the byte ceiling) the eviction loop succeeds and leaves room
for the insertion. -/
theorem evictOldest_fits (size umax cmax : Nat) (hcm : 1 ≤ cmax)
    (hsz : size ≤ umax) :
    ∀ (v : List g2d_buf) (u c : Nat),
    u = (v.map g2d_buf.buf_size).sum → c = v.length →
    ∃ v1, evictOldest size umax cmax v u c =
        some (v1, (v1.map g2d_buf.buf_size).sum, v1.length) ∧
      v1.length + 1 ≤ cmax ∧ (v1.map g2d_buf.buf_size).sum + size ≤ umax := by
  intro v
  induction v with
  | nil =>
    intro u c hu hc
    subst hu; subst hc
    refine ⟨[], ?_, ?_, ?_⟩
    · simp only [List.map_nil, List.sum_nil, List.length_nil]
      unfold evictOldest
      rw [if_neg (by omega)]
    · simp only [List.length_nil]; omega
    · simp only [List.map_nil, List.sum_nil]; omega
  | cons b rest ih =>
    intro u c hu hc
    subst hu; subst hc
    by_cases hcond : (b :: rest).length + 1 > cmax ∨
        ((b :: rest).map g2d_buf.buf_size).sum + size > umax
    · obtain ⟨v1, hev, h1, h2⟩ := ih ((rest.map g2d_buf.buf_size).sum)
        rest.length rfl rfl
      refine ⟨v1, ?_, h1, h2⟩
      unfold evictOldest
      rw [if_pos hcond, if_pos (by simp only [List.length_cons]; omega)]
      have harg1 : ((b :: rest).map g2d_buf.buf_size).sum - b.buf_size
          = (rest.map g2d_buf.buf_size).sum := by
        simp only [List.map_cons, List.sum_cons]; omega
      have harg2 : (b :: rest).length - 1 = rest.length := by
        simp only [List.length_cons]; omega
      rw [harg1, harg2]
      exact hev
    · refine ⟨b :: rest, evictOldest_noop size umax cmax _ _ _ hcond, ?_, ?_⟩
      · push_neg at hcond; omega
      · push_neg at hcond; omega

/-! ### Free / drain / configuration lemmas -/

/-- Inversion of a cached free: everything `free` guarantees when it caches
the buffer. -/
theorem free_cached_spec (l : G2dBufPoolInstance) (buf : g2d_buf)
    (l1 : G2dBufPoolInstance) (h : l.free buf = .cached l1) :
    l.cacheEnabled = true ∧ 1 ≤ l.cacheAllocCountMax ∧
    buf.buf_size ≤ l.cacheUsageMax ∧
    ∃ v u c, evictOldest buf.buf_size l.cacheUsageMax l.cacheAllocCountMax
        l.cacheVector l.cacheUsage l.cacheAllocCount = some (v, u, c) ∧
      l1 = { l with cacheVector := v ++ [buf],
                    cacheUsage := u + buf.buf_size,
                    cacheAllocCount := c + 1 } ∧
      c + 1 = (v ++ [buf]).length ∧
      u + buf.buf_size ≤ l.cacheUsageMax ∧ c + 1 ≤ l.cacheAllocCountMax := by
  by_cases hen : l.cacheEnabled = false
  · unfold G2dBufPoolInstance.free at h
    rw [if_pos hen] at h
    exact absurd h (by simp)
  · have hentrue : l.cacheEnabled = true := by
      cases hE : l.cacheEnabled
      · exact absurd hE hen
      · rfl
    unfold G2dBufPoolInstance.free at h
    rw [if_neg hen] at h
    split at h
    · exact absurd h (by simp)
    · next hcm =>
      split at h
      · exact absurd h (by simp)
      · next hum =>
        split at h
        · exact absurd h (by simp)
        · next v u c hev =>
          split at h
          · next hguard =>
            rw [FreeOut.cached.injEq] at h
            exact ⟨hentrue, by omega, by omega, v, u, c, hev, h.symm, hguard⟩
          · exact absurd h (by simp)

/-- Forward construction: on a consistent enabled lane where the buffer fits
without eviction, `free` appends it at the tail. -/
theorem free_cached_no_evict (l : G2dBufPoolInstance) (buf : g2d_buf)
    (hcons : l.Consistent) (hen : l.cacheEnabled = true)
    (hc : l.cacheAllocCount + 1 ≤ l.cacheAllocCountMax)
    (hu : l.cacheUsage + buf.buf_size ≤ l.cacheUsageMax) :
    l.free buf = .cached { l with cacheVector := l.cacheVector ++ [buf],
                                  cacheUsage := l.cacheUsage + buf.buf_size,
                                  cacheAllocCount := l.cacheAllocCount + 1 } := by
  obtain ⟨husum, hclen⟩ := hcons
  unfold G2dBufPoolInstance.free
  rw [if_neg (by simp [hen]), if_neg (by omega), if_neg (by omega)]
  simp only [evictOldest_noop buf.buf_size l.cacheUsageMax
    l.cacheAllocCountMax l.cacheVector l.cacheUsage l.cacheAllocCount
    (by omega)]
  have hlen : (l.cacheVector ++ [buf]).length = l.cacheVector.length + 1 := by
    simp
  rw [if_pos ⟨by omega, hu, hc⟩]

/-- A free on a disabled lane bypasses the cache. -/
theorem free_disabled (l : G2dBufPoolInstance) (buf : g2d_buf)
    (hen : l.cacheEnabled = false) : l.free buf = .bypass := by
  unfold G2dBufPoolInstance.free
  rw [if_pos hen]

/-- The drain loop subtracts the drained sizes and count. -/
theorem drainSteps_sub : ∀ (w : List g2d_buf) (u c : Nat),
    (w.map g2d_buf.buf_size).sum ≤ u → w.length ≤ c →
    drainSteps w u c = (u - (w.map g2d_buf.buf_size).sum, c - w.length) := by
  intro w
  induction w with
  | nil => intro u c _ _; simp [drainSteps]
  | cons b rest ih =>
    intro u c hsum hlen
    simp only [List.map_cons, List.sum_cons] at hsum
    simp only [List.length_cons] at hlen
    unfold drainSteps
    rw [ih (u - b.buf_size) (c - 1) (by omega) (by omega)]
    simp only [List.map_cons, List.sum_cons, List.length_cons, Prod.mk.injEq]
    omega

/-- On a consistent lane the drain succeeds and zeroes the cache. -/
theorem drainCache_of_consistent (l : G2dBufPoolInstance)
    (h : l.Consistent) :
    l.drainCacheNoLock =
      some { l with cacheVector := [], cacheUsage := 0,
                    cacheAllocCount := 0 } := by
  obtain ⟨hu, hc⟩ := h
  have hsum : (l.cacheVector.reverse.map g2d_buf.buf_size).sum
      = (l.cacheVector.map g2d_buf.buf_size).sum := by
    rw [List.map_reverse, List.sum_reverse]
  have hlen : l.cacheVector.reverse.length = l.cacheVector.length :=
    List.length_reverse _
  have hle1 : (l.cacheVector.reverse.map g2d_buf.buf_size).sum
      ≤ l.cacheUsage := by rw [hsum]; omega
  have hle2 : l.cacheVector.reverse.length ≤ l.cacheAllocCount := by
    rw [hlen]; omega
  have hds : drainSteps l.cacheVector.reverse l.cacheUsage l.cacheAllocCount
      = (0, 0) := by
    rw [drainSteps_sub l.cacheVector.reverse l.cacheUsage l.cacheAllocCount
      hle1 hle2, hsum, hlen]
    simp only [Prod.mk.injEq]
    omega
  unfold G2dBufPoolInstance.drainCacheNoLock
  rw [hds]
  simp

/-- Enabling the cache only sets the flag. -/
theorem setUseCache_true_spec (l : G2dBufPoolInstance) :
    l.setUseCache true = some { l with cacheEnabled := true } := by
  unfold G2dBufPoolInstance.setUseCache
  rw [if_neg (by simp)]

/-- Disabling the cache of a consistent lane (empty whenever it was already
disabled) drains it synchronously. -/
theorem setUseCache_false_spec (l : G2dBufPoolInstance) (hcons : l.Consistent)
    (hde : l.DisabledEmpty) :
    l.setUseCache false = some { l with cacheEnabled := false,
                                        cacheVector := [], cacheUsage := 0,
                                        cacheAllocCount := 0 } := by
  unfold G2dBufPoolInstance.setUseCache
  cases hE : l.cacheEnabled with
  | true =>
    rw [if_pos ⟨rfl, rfl⟩]
    simp only [drainCache_of_consistent l hcons]
  | false =>
    obtain ⟨hv, hu0, hc0⟩ := hde hE
    rw [if_neg (by simp [hE])]
    rw [hv, hu0, hc0]

/-- `setCacheConfig` on a consistent lane drains, then installs the new
ceilings. -/
theorem setCacheConfig_spec (l : G2dBufPoolInstance) (umax cmax : Nat)
    (hcons : l.Consistent) :
    l.setCacheConfig umax cmax =
      some { l with cacheVector := [], cacheUsage := 0, cacheAllocCount := 0,
                    cacheUsageMax := umax, cacheAllocCountMax := cmax } := by
  unfold G2dBufPoolInstance.setCacheConfig
  simp only [drainCache_of_consistent l hcons]

/-! ### Registry lemmas -/

/-- The unit-size probe is comparator-equivalent to a positive-size buffer
exactly when the probed address lies in the buffer's range. -/
theorem g2dBufEquiv_probe_iff (b : g2d_buf) (a : Nat)
    (hpos : 1 ≤ b.buf_size) :
    g2dBufEquiv (gProbe a) b = true ↔ inRange b a := by
  simp only [g2dBufEquiv, G2dBufContainerVaddrCompare, g2dBufOverlap, gProbe,
    inRange, Bool.and_eq_true, Bool.not_eq_true', Bool.and_eq_false_iff,
    decide_eq_false_iff_not, decide_eq_true_eq, Bool.not_eq_false',
    not_lt]
  omega

/-- Overlapping buffers are comparator-equivalent (neither is below the
other). -/
theorem g2dBufEquiv_of_overlap (b x : g2d_buf)
    (h : g2dBufOverlap b x = true) : g2dBufEquiv b x = true := by
  have hc : g2dBufOverlap x b = true := by
    simp only [g2dBufOverlap, decide_eq_true_eq] at h ⊢
    omega
  simp [g2dBufEquiv, G2dBufContainerVaddrCompare, h, hc]

/-- Every buffer is comparator-equivalent to itself. -/
theorem g2dBufEquiv_self (b : g2d_buf) : g2dBufEquiv b b = true := by
  simp [g2dBufEquiv, G2dBufContainerVaddrCompare]

/-- The probe at a buffer's own base address is equivalent to it (equal
addresses compare below in neither direction). -/
theorem g2dBufEquiv_probe_base (b : g2d_buf) :
    g2dBufEquiv (gProbe b.buf_vaddr) b = true := by
  simp [g2dBufEquiv, G2dBufContainerVaddrCompare, gProbe]

/-- A buffer comparator-equivalent to the unit probe at the base address of
a positive-size buffer `b` is comparator-equivalent to `b` itself: the probe
range `[base, base+1)` is contained in the range of `b`. -/
theorem equiv_of_probe_equiv (b e : g2d_buf) (hbs : 1 ≤ b.buf_size)
    (h : g2dBufEquiv (gProbe b.buf_vaddr) e = true) :
    g2dBufEquiv b e = true := by
  simp only [g2dBufEquiv, G2dBufContainerVaddrCompare, g2dBufOverlap, gProbe,
    Bool.and_eq_true, Bool.not_eq_true', Bool.and_eq_false_iff,
    decide_eq_false_iff_not, decide_eq_true_eq, Bool.not_eq_false',
    not_lt] at h ⊢
  omega

/-- Splitting a list by a predicate: the two filtered halves account for the
whole length. -/
theorem length_filter_add_length_filter_not (p : G2dBufContainer → Bool)
    (L : List G2dBufContainer) :
    (L.filter p).length + (L.filter (fun x => ! p x)).length = L.length := by
  induction L with
  | nil => rfl
  | cons x rest ih =>
    simp only [List.filter_cons]
    by_cases hx : p x = true
    · rw [if_pos hx, if_neg (by simp [hx])]
      simp only [List.length_cons]
      omega
    · have hx0 : p x = false := by revert hx; cases p x <;> simp
      rw [if_neg (by simp [hx0]), if_pos (by simp [hx0])]
      simp only [List.length_cons]
      omega

/-- Two positive-size buffers whose ranges share an address overlap. -/
theorem overlap_of_both_inRange (x y : g2d_buf) (a : Nat)
    (hx : inRange x a) (hy : inRange y a) : g2dBufOverlap x y = true := by
  simp only [inRange] at hx hy
  simp only [g2dBufOverlap, decide_eq_true_eq]
  omega

theorem find?_append_first_none (p : G2dBufContainer → Bool)
    (L1 L2 : List G2dBufContainer) (h : ∀ x ∈ L1, p x = false) :
    (L1 ++ L2).find? p = L2.find? p := by
  induction L1 with
  | nil => simp
  | cons x rest ih =>
    rw [List.cons_append,
      List.find?_cons_of_neg _ (by simp [h x (List.mem_cons_self x rest)])]
    exact ih (fun y hy => h y (List.mem_cons_of_mem _ hy))

/-- With pairwise non-overlapping positive-size entries, the probe find
locates exactly the entry whose range contains the address. -/
theorem find?_equiv_unique (L : List G2dBufContainer) (a : Nat)
    (hpos : ∀ x ∈ L, 1 ≤ x.g2dBuf.buf_size)
    (hdisj : L.Pairwise (fun x y => g2dBufOverlap x.g2dBuf y.g2dBuf = false))
    (e : G2dBufContainer) (he : e ∈ L) (hin : inRange e.g2dBuf a) :
    L.find? (fun x => g2dBufEquiv (gProbe a) x.g2dBuf) = some e := by
  induction L with
  | nil => cases he
  | cons x rest ih =>
    rcases List.mem_cons.mp he with rfl | hmem
    · exact List.find?_cons_of_pos _
        ((g2dBufEquiv_probe_iff _ a (hpos _ (List.mem_cons_self _ _))).mpr hin)
    · have hxf : g2dBufEquiv (gProbe a) x.g2dBuf = false := by
        rcases hE : g2dBufEquiv (gProbe a) x.g2dBuf with _ | _
        · rfl
        · have hx : inRange x.g2dBuf a :=
            (g2dBufEquiv_probe_iff x.g2dBuf a
              (hpos x (List.mem_cons_self x rest))).mp hE
          have hov : g2dBufOverlap x.g2dBuf e.g2dBuf = true :=
            overlap_of_both_inRange _ _ a hx hin
          have hno : g2dBufOverlap x.g2dBuf e.g2dBuf = false :=
            (List.pairwise_cons.mp hdisj).1 e hmem
          rw [hov] at hno
          exact absurd hno (by simp)
      rw [List.find?_cons_of_neg _ (by simp [hxf])]
      exact ih (fun y hy => hpos y (List.mem_cons_of_mem _ hy))
        (List.pairwise_cons.mp hdisj).2 hmem

/-- With positive-size entries none of which contains the address, the probe
find fails. -/
theorem find?_equiv_none (L : List G2dBufContainer) (a : Nat)
    (hpos : ∀ x ∈ L, 1 ≤ x.g2dBuf.buf_size)
    (hnone : ∀ x ∈ L, ¬ inRange x.g2dBuf a) :
    L.find? (fun x => g2dBufEquiv (gProbe a) x.g2dBuf) = none := by
  rw [List.find?_eq_none]
  intro x hx hcon
  exact hnone x hx ((g2dBufEquiv_probe_iff _ a (hpos x hx)).mp hcon)

/-- Registering a buffer overlapping a registered entry throws: either the
base-address pre-assert fires, or the set insert is refused and the
`allocCount == allocSet.size()` assert fires. -/
theorem register_overlap_err (r : G2dBufRepo) (b : g2d_buf) (cb : Bool)
    (hcnt : r.allocCount = r.allocSet.length)
    (x : G2dBufContainer) (hx : x ∈ r.allocSet)
    (hov : g2dBufOverlap b x.g2dBuf = true) :
    r.registerDescriptor b cb = none := by
  unfold G2dBufRepo.registerDescriptor
  by_cases hl : (r.isVaddrG2dBufNoLock b.buf_vaddr).isSome
  · rw [if_pos hl]
  · have hany : r.allocSet.any (fun e => g2dBufEquiv b e.g2dBuf) = true :=
      List.any_eq_true.mpr ⟨x, hx, g2dBufEquiv_of_overlap b x.g2dBuf hov⟩
    rw [if_neg hl]
    simp only [hany, if_true]
    rw [if_neg (by omega)]

/-- Registering a buffer equivalent to no registered entry succeeds and
appends it. -/
theorem register_fresh (r : G2dBufRepo) (b : g2d_buf) (cb : Bool)
    (hcnt : r.allocCount = r.allocSet.length)
    (hfr : ∀ e ∈ r.allocSet, g2dBufEquiv b e.g2dBuf = false)
    (hfrp : ∀ e ∈ r.allocSet,
      g2dBufEquiv (gProbe b.buf_vaddr) e.g2dBuf = false) :
    r.registerDescriptor b cb =
      some ⟨r.allocSet ++ [⟨b, cb⟩], r.allocCount + 1⟩ := by
  have hl : r.isVaddrG2dBufNoLock b.buf_vaddr = none := by
    unfold G2dBufRepo.isVaddrG2dBufNoLock
    rw [List.find?_eq_none]
    intro x hx hcon
    rw [hfrp x hx] at hcon
    exact absurd hcon (by simp)
  have hany : r.allocSet.any (fun e => g2dBufEquiv b e.g2dBuf) = false := by
    rw [List.any_eq_false]
    intro x hx hcon
    rw [hfr x hx] at hcon
    exact absurd hcon (by simp)
  have hpost : (G2dBufRepo.mk (r.allocSet ++ [⟨b, cb⟩])
        (r.allocCount + 1)).isVaddrG2dBufNoLock b.buf_vaddr
      = some ⟨b, cb⟩ := by
    unfold G2dBufRepo.isVaddrG2dBufNoLock
    rw [find?_append_first_none _ _ _ hfrp]
    exact List.find?_cons_of_pos _ (g2dBufEquiv_probe_base b)
  unfold G2dBufRepo.registerDescriptor
  rw [if_neg (by simp [hl])]
  simp only [hany, Bool.false_eq_true, if_false]
  rw [if_pos (by simp [hcnt]), if_pos (by simp [hpost])]

/-- Unregistering a buffer whose base address no registered range contains
throws on the pre-assert. -/
theorem unregister_not_found (r : G2dBufRepo) (b : g2d_buf)
    (hl : r.isVaddrG2dBufNoLock b.buf_vaddr = none) :
    r.unregisterDescriptor b = none := by
  unfold G2dBufRepo.unregisterDescriptor
  rw [if_neg (by simp [hl])]

/-- Unregistering a freshly appended buffer restores the repository. -/
theorem unregister_fresh (r : G2dBufRepo) (b : g2d_buf) (cb : Bool)
    (hcnt : r.allocCount = r.allocSet.length)
    (hfr : ∀ e ∈ r.allocSet, g2dBufEquiv b e.g2dBuf = false)
    (hfrp : ∀ e ∈ r.allocSet,
      g2dBufEquiv (gProbe b.buf_vaddr) e.g2dBuf = false) :
    (G2dBufRepo.mk (r.allocSet ++ [⟨b, cb⟩])
      (r.allocCount + 1)).unregisterDescriptor b
      = some ⟨r.allocSet, r.allocCount⟩ := by
  have hpost : (G2dBufRepo.mk (r.allocSet ++ [⟨b, cb⟩])
        (r.allocCount + 1)).isVaddrG2dBufNoLock b.buf_vaddr
      = some ⟨b, cb⟩ := by
    unfold G2dBufRepo.isVaddrG2dBufNoLock
    rw [find?_append_first_none _ _ _ hfrp]
    exact List.find?_cons_of_pos _ (g2dBufEquiv_probe_base b)
  have hfil : (r.allocSet ++ [(⟨b, cb⟩ : G2dBufContainer)]).filter
      (fun e => ! g2dBufEquiv b e.g2dBuf) = r.allocSet := by
    rw [List.filter_append]
    have h1 : r.allocSet.filter (fun e => ! g2dBufEquiv b e.g2dBuf)
        = r.allocSet := by
      rw [List.filter_eq_self]
      intro x hx
      simp [hfr x hx]
    have h2 : ([(⟨b, cb⟩ : G2dBufContainer)]).filter
        (fun e => ! g2dBufEquiv b e.g2dBuf) = [] := by
      simp [List.filter, g2dBufEquiv_self]
    rw [h1, h2, List.append_nil]
  have hlafter : (G2dBufRepo.mk r.allocSet
        r.allocCount).isVaddrG2dBufNoLock b.buf_vaddr = none := by
    unfold G2dBufRepo.isVaddrG2dBufNoLock
    rw [List.find?_eq_none]
    intro x hx hcon
    rw [hfrp x hx] at hcon
    exact absurd hcon (by simp)
  unfold G2dBufRepo.unregisterDescriptor
  rw [if_pos (by simp [hpost])]
  simp only [hfil]
  rw [if_pos (by simp [hcnt]), if_neg (by simp [hlafter])]
  simp

/-- Unregistering a descriptor comparator-equivalent to exactly one
registered entry, with some registered range containing the descriptor's
base address, completes without error: the erase drops the single
equivalent entry, the count assert sees a matching decrement, and the
post-lookup assert no longer finds the base address. -/
theorem unregister_single_equiv (r : G2dBufRepo) (b : g2d_buf)
    (hcnt : r.allocCount = r.allocSet.length) (hbs : 1 ≤ b.buf_size)
    (hbase : ∃ x ∈ r.allocSet, inRange x.g2dBuf b.buf_vaddr)
    (hone : (r.allocSet.filter
      (fun e => g2dBufEquiv b e.g2dBuf)).length = 1) :
    r.unregisterDescriptor b =
      some ⟨r.allocSet.filter (fun e => ! g2dBufEquiv b e.g2dBuf),
            r.allocCount - 1⟩ := by
  obtain ⟨x, hx, hin⟩ := hbase
  have hxs : 1 ≤ x.g2dBuf.buf_size := by
    obtain ⟨h1, h2⟩ := hin
    omega
  have hpre : (r.isVaddrG2dBufNoLock b.buf_vaddr).isSome = true := by
    unfold G2dBufRepo.isVaddrG2dBufNoLock
    rw [List.find?_isSome]
    exact ⟨x, hx, (g2dBufEquiv_probe_iff x.g2dBuf b.buf_vaddr hxs).mpr hin⟩
  have hsum : (r.allocSet.filter (fun e => g2dBufEquiv b e.g2dBuf)).length
      + (r.allocSet.filter (fun e => ! g2dBufEquiv b e.g2dBuf)).length
      = r.allocSet.length :=
    length_filter_add_length_filter_not _ _
  have hpost : (G2dBufRepo.mk
      (r.allocSet.filter (fun e => ! g2dBufEquiv b e.g2dBuf))
      (r.allocCount - 1)).isVaddrG2dBufNoLock b.buf_vaddr = none := by
    unfold G2dBufRepo.isVaddrG2dBufNoLock
    rw [List.find?_eq_none]
    intro e he hcon
    have hb : g2dBufEquiv b e.g2dBuf = true :=
      equiv_of_probe_equiv b e.g2dBuf hbs hcon
    have hne := (List.mem_filter.mp he).2
    rw [hb] at hne
    exact absurd hne (by simp)
  unfold G2dBufRepo.unregisterDescriptor
  rw [if_pos hpre]
  simp only [hpost, Option.isSome_none, Bool.false_eq_true, if_false]
  rw [if_pos (by omega)]

/-- Unregistering a descriptor comparator-equivalent to two or more
registered entries throws: `erase` drops them all, so the decremented
`allocCount` can no longer equal `allocSet.size()` and that assert fires
(when no registered range contains the base, the pre-assert fires
instead). -/
theorem unregister_multi_equiv (r : G2dBufRepo) (b : g2d_buf)
    (hcnt : r.allocCount = r.allocSet.length)
    (hmany : 2 ≤ (r.allocSet.filter
      (fun e => g2dBufEquiv b e.g2dBuf)).length) :
    r.unregisterDescriptor b = none := by
  have hsum : (r.allocSet.filter (fun e => g2dBufEquiv b e.g2dBuf)).length
      + (r.allocSet.filter (fun e => ! g2dBufEquiv b e.g2dBuf)).length
      = r.allocSet.length :=
    length_filter_add_length_filter_not _ _
  unfold G2dBufRepo.unregisterDescriptor
  by_cases hpre : (r.isVaddrG2dBufNoLock b.buf_vaddr).isSome = true
  · rw [if_pos hpre]
    simp only [hcnt]
    rw [if_neg (by omega)]
  · rw [if_neg hpre]


/-! ### Operation-sequence lemmas -/

theorem applyOp_alloc_eq (l : G2dBufPoolInstance) (size : Nat)
    (fresh : Option g2d_buf) :
    applyOp l (.alloc size fresh) =
      match l.allocFromCache size with
      | .hit _ l1 => some l1
      | .miss => some l
      | .err => none := by
  show (match l.alloc size fresh with
        | none => none
        | some (_, l1) => some l1) = _
  unfold G2dBufPoolInstance.alloc
  cases l.allocFromCache size <;> rfl

theorem applyOp_free_eq (l : G2dBufPoolInstance) (buf : g2d_buf) :
    applyOp l (.free buf) =
      match l.free buf with
      | .cached l1 => some l1
      | .bypass => some l
      | .err => none := rfl

theorem applyOp_setUseCache_eq (l : G2dBufPoolInstance) (flag : Bool) :
    applyOp l (.setUseCache flag) = l.setUseCache flag := rfl

theorem applyOp_setCacheConfig_eq (l : G2dBufPoolInstance)
    (umax cmax : Nat) :
    applyOp l (.setCacheConfig umax cmax) = l.setCacheConfig umax cmax := rfl

/-- Each lane operation that completes preserves the lane invariant. -/
theorem applyOp_inv (l : G2dBufPoolInstance) (op : PoolOp)
    (l1 : G2dBufPoolInstance) (hinv : l.Inv) (h : applyOp l op = some l1) :
    l1.Inv := by
  obtain ⟨⟨husum, hclen⟩, humax, hcmax⟩ := hinv
  cases op with
  | alloc size fresh =>
    rw [applyOp_alloc_eq] at h
    cases hA : l.allocFromCache size with
    | hit buf l2 =>
      rw [hA] at h
      simp only [Option.some.injEq] at h
      subst h
      obtain ⟨hen, i, hget, hl2, hg1, hg2, hg3⟩ :=
        allocFromCache_hit_spec l size buf l2 hA
      subst hl2
      have hsum := sum_eraseIdx_opt l.cacheVector i buf hget
      refine ⟨⟨?_, ?_⟩, ?_, ?_⟩ <;> dsimp only <;> omega
    | miss =>
      rw [hA] at h
      simp only [Option.some.injEq] at h
      subst h
      exact ⟨⟨husum, hclen⟩, humax, hcmax⟩
    | err =>
      rw [hA] at h
      exact absurd h (by simp)
  | free buf =>
    rw [applyOp_free_eq] at h
    cases hF : l.free buf with
    | cached l2 =>
      rw [hF] at h
      simp only [Option.some.injEq] at h
      subst h
      obtain ⟨hen, hcm, hsz, v, u, c, hev, hl2, hg1, hg2, hg3⟩ :=
        free_cached_spec l buf l2 hF
      subst hl2
      obtain ⟨hu1, hc1⟩ :=
        evictOldest_consistent buf.buf_size l.cacheUsageMax
          l.cacheAllocCountMax l.cacheVector l.cacheUsage l.cacheAllocCount
          v u c husum hclen hev
      refine ⟨⟨?_, ?_⟩, hg2, hg3⟩
      · simp only [List.map_append, List.sum_append, List.map_cons,
          List.sum_cons, List.map_nil, List.sum_nil]
        omega
      · simp only [List.length_append, List.length_cons, List.length_nil]
        omega
    | bypass =>
      rw [hF] at h
      simp only [Option.some.injEq] at h
      subst h
      exact ⟨⟨husum, hclen⟩, humax, hcmax⟩
    | err =>
      rw [hF] at h
      exact absurd h (by simp)
  | setUseCache flag =>
    rw [applyOp_setUseCache_eq] at h
    unfold G2dBufPoolInstance.setUseCache at h
    split at h
    · rw [drainCache_of_consistent l ⟨husum, hclen⟩] at h
      simp only [Option.some.injEq] at h
      subst h
      exact ⟨⟨rfl, rfl⟩, Nat.zero_le _, Nat.zero_le _⟩
    · simp only [Option.some.injEq] at h
      subst h
      exact ⟨⟨husum, hclen⟩, humax, hcmax⟩
  | setCacheConfig umax cmax =>
    rw [applyOp_setCacheConfig_eq,
      setCacheConfig_spec l umax cmax ⟨husum, hclen⟩] at h
    simp only [Option.some.injEq] at h
    subst h
    exact ⟨⟨rfl, rfl⟩, Nat.zero_le _, Nat.zero_le _⟩

/-- Sequences of completing operations preserve the lane invariant. -/
theorem applyOps_inv (l : G2dBufPoolInstance) (ops : List PoolOp)
    (l1 : G2dBufPoolInstance) (hinv : l.Inv) (h : applyOps l ops = some l1) :
    l1.Inv := by
  induction ops generalizing l with
  | nil =>
    unfold applyOps at h
    simp only [Option.some.injEq] at h
    subst h
    exact hinv
  | cons op ops ih =>
    unfold applyOps at h
    cases hA : applyOp l op with
    | none =>
      rw [hA] at h
      exact absurd h (by simp)
    | some l2 =>
      rw [hA] at h
      exact ih l2 (applyOp_inv l op l2 hinv hA) h

theorem applyOps_cons (l : G2dBufPoolInstance) (op : PoolOp)
    (ops : List PoolOp) (l2 : G2dBufPoolInstance)
    (h : applyOp l op = some l2) :
    applyOps l (op :: ops) = applyOps l2 ops := by
  conv_lhs => unfold applyOps
  rw [h]

theorem applyOps_append (l : G2dBufPoolInstance) (ops1 ops2 : List PoolOp)
    (l1 : G2dBufPoolInstance) (h : applyOps l ops1 = some l1) :
    applyOps l (ops1 ++ ops2) = applyOps l1 ops2 := by
  induction ops1 generalizing l with
  | nil =>
    unfold applyOps at h
    simp only [Option.some.injEq] at h
    subst h
    simp
  | cons op ops ih =>
    unfold applyOps at h
    cases hA : applyOp l op with
    | none =>
      rw [hA] at h
      exact absurd h (by simp)
    | some l2 =>
      rw [hA] at h
      rw [List.cons_append, applyOps_cons l op (ops ++ ops2) l2 hA]
      exact ih l2 h

/-- Freeing a batch of buffers that fits within both ceilings appends them in
order at the cache tail. -/
theorem applyOps_free_fill :
    ∀ (cs : List g2d_buf) (l : G2dBufPoolInstance),
    l.cacheEnabled = true → l.Consistent →
    l.cacheAllocCount + cs.length ≤ l.cacheAllocCountMax →
    l.cacheUsage + (cs.map g2d_buf.buf_size).sum ≤ l.cacheUsageMax →
    applyOps l (cs.map PoolOp.free) =
      some { l with cacheVector := l.cacheVector ++ cs,
                    cacheUsage := l.cacheUsage + (cs.map g2d_buf.buf_size).sum,
                    cacheAllocCount := l.cacheAllocCount + cs.length } := by
  intro cs
  induction cs with
  | nil =>
    intro l hen hcons hc hu
    simp only [List.map_nil, applyOps, List.sum_nil, List.length_nil,
      Nat.add_zero, List.append_nil]
  | cons cbuf rest ih =>
    intro l hen hcons hc hu
    obtain ⟨husum, hclen⟩ := hcons
    simp only [List.length_cons] at hc
    simp only [List.map_cons, List.sum_cons] at hu
    have hfree := free_cached_no_evict l cbuf ⟨husum, hclen⟩ hen
      (by omega) (by omega)
    have hstep : applyOp l (PoolOp.free cbuf) =
        some { l with cacheVector := l.cacheVector ++ [cbuf],
                      cacheUsage := l.cacheUsage + cbuf.buf_size,
                      cacheAllocCount := l.cacheAllocCount + 1 } := by
      rw [applyOp_free_eq, hfree]
    rw [List.map_cons, applyOps_cons _ _ _ _ hstep]
    have hihres := ih { l with cacheVector := l.cacheVector ++ [cbuf], cacheUsage := l.cacheUsage + cbuf.buf_size, cacheAllocCount := l.cacheAllocCount + 1 }
      hen
      ⟨by simp only [List.map_append, List.sum_append, List.map_cons,
          List.sum_cons, List.map_nil, List.sum_nil]; omega,
        by simp only [List.length_append, List.length_cons,
          List.length_nil]; omega⟩
      (by dsimp only; omega) (by dsimp only; omega)
    rw [hihres]
    simp only [Option.some.injEq, G2dBufPoolInstance.mk.injEq,
      List.append_assoc, List.singleton_append, List.map_cons, List.sum_cons,
      List.length_cons]
    exact ⟨trivial, trivial, trivial, trivial, by omega, by omega, trivial⟩

/-! ### Claim theorems -/

/-- Claim C1: on an enabled pool lane with a non-empty free-list, `alloc`
selects the free-list entry with the smallest headroom among entries whose
size is at least the requested size and whose headroom is at most the
requested size, removes it (decreasing cached bytes and count accordingly)
and returns it; if no entry qualifies it requests a fresh buffer from the
underlying allocator.  In particular with free-list sizes `{S, 2S, 3S}` the
size-`S` buffer is returned (exact-match short circuit), and with only
`{3S}` a fresh allocation is made. -/
theorem pool_alloc_best_fit (l : G2dBufPoolInstance) (size : Nat)
    (hinv : l.Inv) (hen : l.cacheEnabled = true) (hpos : 0 < size)
    (hsz : size < SIZE_MAX) :
    ((∃ b ∈ l.cacheVector, qualifies size b) →
      ∃ buf i, l.cacheVector[i]? = some buf ∧ qualifies size buf ∧
        (∀ b ∈ l.cacheVector, qualifies size b →
          buf.buf_size - size ≤ b.buf_size - size) ∧
        l.allocFromCache size = .hit buf
          { l with cacheVector := l.cacheVector.eraseIdx i,
                   cacheUsage := l.cacheUsage - buf.buf_size,
                   cacheAllocCount := l.cacheAllocCount - 1 } ∧
        (∀ fresh, l.alloc size fresh = some (some buf,
          { l with cacheVector := l.cacheVector.eraseIdx i,
                   cacheUsage := l.cacheUsage - buf.buf_size,
                   cacheAllocCount := l.cacheAllocCount - 1 }))) ∧
    ((∀ b ∈ l.cacheVector, ¬ qualifies size b) →
      l.allocFromCache size = .miss ∧
      ∀ fresh, l.alloc size fresh = some (fresh, l)) ∧
    (∀ (S umax cmax : Nat) (cb : Bool) (b1 b2 b3 : g2d_buf), 0 < S →
      S < SIZE_MAX → b1.buf_size = S → b2.buf_size = 2 * S →
      b3.buf_size = 3 * S → 6 * S ≤ umax → 3 ≤ cmax →
      ∃ l1, (G2dBufPoolInstance.mk true cb umax cmax (6 * S) 3
          [b1, b2, b3]).allocFromCache S = .hit b1 l1 ∧
        l1.cacheVector = [b2, b3] ∧ l1.cacheUsage = 5 * S ∧
        l1.cacheAllocCount = 2) ∧
    (∀ (S umax cmax u c : Nat) (cb : Bool) (b3 : g2d_buf), 0 < S →
      S < SIZE_MAX → b3.buf_size = 3 * S →
      (G2dBufPoolInstance.mk true cb umax cmax u c [b3]).allocFromCache S
        = .miss) := by
  refine ⟨?_, ?_, ?_, ?_⟩
  · intro hex
    obtain ⟨buf, i, hget, hq, hmin, hhit⟩ :=
      allocFromCache_hit_of_qualifies l size hinv hen hpos hsz hex
    refine ⟨buf, i, hget, hq, hmin, hhit, ?_⟩
    intro fresh
    unfold G2dBufPoolInstance.alloc
    rw [hhit]
  · intro hall
    have hmiss := allocFromCache_miss_of_no_qualifies l size hsz hall
    refine ⟨hmiss, ?_⟩
    intro fresh
    unfold G2dBufPoolInstance.alloc
    rw [hmiss]
  · intro S umax cmax cb b1 b2 b3 hS hSM h1 h2 h3 hum hcm
    have hM : 0 < SIZE_MAX := by norm_num [SIZE_MAX]
    have hscan : allocScan S [b1, b2, b3] SIZE_MAX none 0 = some (0, b1) := by
      simp only [allocScan, h1]
      rw [if_pos (le_refl S), if_pos ⟨by omega, by omega⟩,
        if_pos (by omega : S - S = 0)]
    refine ⟨{ cacheEnabled := true, cacheable := cb, cacheUsageMax := umax,
              cacheAllocCountMax := cmax,
              cacheUsage := 6 * S - b1.buf_size, cacheAllocCount := 2,
              cacheVector := [b2, b3] }, ?_, rfl, ?_, rfl⟩
    · unfold G2dBufPoolInstance.allocFromCache
      rw [if_neg (by simp), if_neg (by simp), hscan]
      simp only [List.getElem?_cons_zero]
      rw [if_pos ⟨by simp, by rw [h1]; omega, by omega⟩]
      rfl
    · show 6 * S - b1.buf_size = 5 * S
      rw [h1]
      omega
  · intro S umax cmax u c cb b3 hS hSM h3
    apply allocFromCache_miss_of_no_qualifies _ _ hSM
    intro b hb hq
    rw [List.mem_singleton] at hb
    subst hb
    obtain ⟨hq1, hq2⟩ := hq
    rw [h3] at hq1 hq2
    omega

/-- Witness for C1 at concrete inputs: a lane with sizes `{16, 32, 48}` and
request 16 returns the 16-byte buffer; a lane with only `{48}` misses. -/
theorem pool_alloc_best_fit_witness :
    (∃ l1, (G2dBufPoolInstance.mk true true 1000 16 96 3
        [⟨1, 0, 16⟩, ⟨2, 0, 32⟩, ⟨3, 0, 48⟩]).allocFromCache 16 =
        .hit ⟨1, 0, 16⟩ l1 ∧ l1.cacheVector = [⟨2, 0, 32⟩, ⟨3, 0, 48⟩] ∧
        l1.cacheUsage = 80 ∧ l1.cacheAllocCount = 2) ∧
    (G2dBufPoolInstance.mk true true 1000 16 48 1
      [⟨3, 0, 48⟩]).allocFromCache 16 = .miss := by
  constructor
  · exact (pool_alloc_best_fit ⟨true, true, 1000, 16, 0, 0, []⟩ 16
      (by decide) rfl (by decide) (by decide)).2.2.1 16 1000 16 true
      ⟨1, 0, 16⟩ ⟨2, 0, 32⟩ ⟨3, 0, 48⟩ (by decide) (by decide) (by decide)
      (by decide) (by decide) (by decide) (by decide)
  · exact (pool_alloc_best_fit ⟨true, true, 1000, 16, 0, 0, []⟩ 16
      (by decide) rfl (by decide) (by decide)).2.2.2 16 1000 16 48 1 true
      ⟨3, 0, 48⟩ (by decide) (by decide) (by decide)

/-- Claim C2: across every sequence of lane operations started from a lane
satisfying the invariant, the cached bytes stay at or below the configured
byte ceiling and the cached count at or below the configured count ceiling
(in particular after every completing `free` on an enabled lane). -/
theorem pool_cache_ceiling_invariant (l : G2dBufPoolInstance)
    (ops : List PoolOp) (l1 : G2dBufPoolInstance) (hinv : l.Inv)
    (h : applyOps l ops = some l1) :
    l1.cacheUsage ≤ l1.cacheUsageMax ∧
    l1.cacheAllocCount ≤ l1.cacheAllocCountMax := by
  obtain ⟨-, h1, h2⟩ := applyOps_inv l ops l1 hinv h
  exact ⟨h1, h2⟩

/-- Witness for C2: three frees on an enabled 2-entry lane stay within the
ceilings. -/
theorem pool_cache_ceiling_invariant_witness :
    applyOps ⟨true, true, 100, 2, 0, 0, []⟩
        [.free ⟨1, 0, 4⟩, .free ⟨2, 0, 4⟩, .free ⟨3, 0, 4⟩]
      = some ⟨true, true, 100, 2, 8, 2, [⟨2, 0, 4⟩, ⟨3, 0, 4⟩]⟩ ∧
    (8 ≤ 100 ∧ 2 ≤ 2) := by
  have h : applyOps (⟨true, true, 100, 2, 0, 0, []⟩ : G2dBufPoolInstance)
      [.free ⟨1, 0, 4⟩, .free ⟨2, 0, 4⟩, .free ⟨3, 0, 4⟩]
      = some ⟨true, true, 100, 2, 8, 2, [⟨2, 0, 4⟩, ⟨3, 0, 4⟩]⟩ := by decide
  exact ⟨h, pool_cache_ceiling_invariant _ _ _ (by decide) h⟩

theorem sum_sizes_const : ∀ (cs : List g2d_buf) (S : Nat),
    (∀ b ∈ cs, b.buf_size = S) →
    (cs.map g2d_buf.buf_size).sum = cs.length * S := by
  intro cs S
  induction cs with
  | nil => intro _; simp
  | cons b rest ih =>
    intro h
    simp only [List.map_cons, List.sum_cons, List.length_cons]
    rw [h b (List.mem_cons_self b rest),
      ih (fun y hy => h y (List.mem_cons_of_mem _ hy))]
    ring

/-- Claim C3: when `free` on an enabled lane must make room it removes
oldest (front) free-list entries and appends the freed buffer at the tail,
so the resulting free-list is always a suffix of the old one followed by the
freed buffer; and for a lane whose ceilings allow exactly `K` entries,
freeing `K+1` same-size buffers in order leaves exactly the last `K` cached,
with the first freed buffer evicted. -/
theorem pool_fifo_eviction :
    (∀ (l : G2dBufPoolInstance) (buf : g2d_buf) (l1 : G2dBufPoolInstance),
      l.free buf = .cached l1 →
      ∃ d, l1.cacheVector = l.cacheVector.drop d ++ [buf]) ∧
    (∀ (K S umax : Nat) (cb : Bool) (bsFull : List g2d_buf), 1 ≤ K →
      bsFull.length = K + 1 → (∀ b ∈ bsFull, b.buf_size = S) →
      K * S ≤ umax →
      ∃ l1, applyOps (G2dBufPoolInstance.mk true cb umax K 0 0 [])
          (bsFull.map PoolOp.free) = some l1 ∧
        l1.cacheVector = bsFull.tail ∧ l1.cacheUsage = K * S ∧
        l1.cacheAllocCount = K) := by
  constructor
  · intro l buf l1 h
    obtain ⟨-, -, -, v, u, c, hev, hl1, -, -, -⟩ :=
      free_cached_spec l buf l1 h
    obtain ⟨d, hd⟩ := evictOldest_drop _ _ _ _ _ _ _ _ _ hev
    subst hl1
    refine ⟨d, ?_⟩
    show v ++ [buf] = l.cacheVector.drop d ++ [buf]
    rw [hd]
  · intro K S umax cb bsFull hK hlen hsizes hum
    have hne : bsFull ≠ [] := by
      intro hcon
      rw [hcon] at hlen
      simp at hlen
    have hdec := List.dropLast_append_getLast hne
    have hfl : bsFull.dropLast.length = K := by
      rw [List.length_dropLast, hlen]
      omega
    have hfs : ∀ b ∈ bsFull.dropLast, b.buf_size = S := fun b hb =>
      hsizes b (List.dropLast_subset bsFull hb)
    have hlS : (bsFull.getLast hne).buf_size = S :=
      hsizes _ (List.getLast_mem hne)
    have hsum0 : (bsFull.dropLast.map g2d_buf.buf_size).sum = K * S := by
      rw [sum_sizes_const _ S hfs, hfl]
    obtain ⟨k, rfl⟩ : ∃ k, K = k + 1 := ⟨K - 1, by omega⟩
    have hX : S ≤ (k + 1) * S := Nat.le_mul_of_pos_left S (by omega)
    have hmid : applyOps (G2dBufPoolInstance.mk true cb umax (k + 1) 0 0 [])
        (bsFull.dropLast.map PoolOp.free) =
        some (G2dBufPoolInstance.mk true cb umax (k + 1) ((k + 1) * S)
          (k + 1) bsFull.dropLast) := by
      rw [applyOps_free_fill bsFull.dropLast _ rfl ⟨rfl, rfl⟩
        (by show 0 + bsFull.dropLast.length ≤ k + 1; omega)
        (by show 0 + (bsFull.dropLast.map g2d_buf.buf_size).sum ≤ umax
            rw [hsum0]; omega)]
      simp only [List.nil_append, Nat.zero_add, hsum0, hfl]
    cases hfront : bsFull.dropLast with
    | nil =>
      rw [hfront] at hfl
      simp at hfl
    | cons hd tl =>
      rw [hfront] at hmid hfl
      simp only [List.length_cons] at hfl
      have htl_len : tl.length = k := by omega
      have hhd : hd.buf_size = S := hfs hd (by
        rw [hfront]; exact List.mem_cons_self _ _)
      have hev : evictOldest S umax (k + 1) (hd :: tl) ((k + 1) * S) (k + 1)
          = some (tl, (k + 1) * S - S, k) := by
        unfold evictOldest
        rw [if_pos (by omega), if_pos (by omega), hhd]
        have h11 : k + 1 - 1 = k := by omega
        rw [h11]
        exact evictOldest_noop S umax (k + 1) tl ((k + 1) * S - S) k
          (by omega)
      have hfree : (G2dBufPoolInstance.mk true cb umax (k + 1) ((k + 1) * S)
            (k + 1) (hd :: tl)).free (bsFull.getLast hne) = .cached
          (G2dBufPoolInstance.mk true cb umax (k + 1) ((k + 1) * S) (k + 1)
            (tl ++ [bsFull.getLast hne])) := by
        unfold G2dBufPoolInstance.free
        rw [hlS]
        rw [if_neg (by simp), if_neg (by dsimp only; omega),
          if_neg (by dsimp only; omega)]
        simp only [hev]
        rw [if_pos ⟨by simp only [List.length_append, List.length_cons,
            List.length_nil]; omega, by omega, by omega⟩]
        have heq : (k + 1) * S - S + S = (k + 1) * S := by omega
        rw [heq]
      have hstep : applyOp (G2dBufPoolInstance.mk true cb umax (k + 1)
            ((k + 1) * S) (k + 1) (hd :: tl))
            (PoolOp.free (bsFull.getLast hne)) =
          some (G2dBufPoolInstance.mk true cb umax (k + 1) ((k + 1) * S)
            (k + 1) (tl ++ [bsFull.getLast hne])) := by
        rw [applyOp_free_eq, hfree]
      have hmap : bsFull.map PoolOp.free =
          bsFull.dropLast.map PoolOp.free ++
            [PoolOp.free (bsFull.getLast hne)] := by
        conv_lhs => rw [← hdec]
        rw [List.map_append, List.map_cons, List.map_nil]
      have htail : bsFull.tail = tl ++ [bsFull.getLast hne] := by
        conv_lhs => rw [← hdec, hfront]
        rfl
      refine ⟨G2dBufPoolInstance.mk true cb umax (k + 1) ((k + 1) * S)
        (k + 1) (tl ++ [bsFull.getLast hne]), ?_, ?_, rfl, rfl⟩
      · rw [hmap, hfront, applyOps_append _ _ _ _ hmid,
          applyOps_cons _ _ _ _ hstep]
        rfl
      · rw [htail]
  
/-- Witness for C3: ceilings allowing 2 entries, freeing 3 same-size
buffers leaves the last two cached. -/
theorem pool_fifo_eviction_witness :
    ∃ l1, applyOps (G2dBufPoolInstance.mk true true 100 2 0 0 [])
        ([⟨1, 0, 4⟩, ⟨2, 0, 4⟩, ⟨3, 0, 4⟩].map PoolOp.free) = some l1 ∧
      l1.cacheVector = [⟨2, 0, 4⟩, ⟨3, 0, 4⟩] ∧ l1.cacheUsage = 8 ∧
      l1.cacheAllocCount = 2 :=
  pool_fifo_eviction.2 2 4 100 true [⟨1, 0, 4⟩, ⟨2, 0, 4⟩, ⟨3, 0, 4⟩]
    (by decide) (by decide) (by decide) (by decide)

/-- Claim C10: a disabled lane caches nothing.  The freshly constructed lane
is disabled and empty; `setUseCache false` restores this state by draining
synchronously; `free` on a disabled lane bypasses the cache entirely
(releasing directly, lane unchanged); `alloc` on a disabled lane falls
through to the underlying allocator leaving the lane unchanged; and `alloc`
and `setCacheConfig` preserve the disabled-empty property. -/
theorem pool_disabled_lane_empty :
    (∀ cb : Bool, (G2dBufPoolInstance.mkInitial cb).cacheEnabled = false ∧
      (G2dBufPoolInstance.mkInitial cb).cacheVector = [] ∧
      (G2dBufPoolInstance.mkInitial cb).cacheUsage = 0 ∧
      (G2dBufPoolInstance.mkInitial cb).cacheAllocCount = 0) ∧
    (∀ l : G2dBufPoolInstance, l.Consistent → l.DisabledEmpty →
      ∃ l1, l.setUseCache false = some l1 ∧ l1.cacheEnabled = false ∧
        l1.cacheVector = [] ∧ l1.cacheUsage = 0 ∧ l1.cacheAllocCount = 0) ∧
    (∀ (l : G2dBufPoolInstance) (buf : g2d_buf), l.cacheEnabled = false →
      l.free buf = .bypass) ∧
    (∀ (l : G2dBufPoolInstance) (size : Nat) (fresh : Option g2d_buf),
      l.cacheEnabled = false →
      l.allocFromCache size = .miss ∧ l.alloc size fresh = some (fresh, l)) ∧
    (∀ (l : G2dBufPoolInstance) (size : Nat) (fresh : Option g2d_buf)
      (l1 : G2dBufPoolInstance), l.DisabledEmpty →
      applyOp l (.alloc size fresh) = some l1 → l1.DisabledEmpty) ∧
    (∀ (l : G2dBufPoolInstance) (umax cmax : Nat), l.Consistent →
      ∃ l1, l.setCacheConfig umax cmax = some l1 ∧ l1.DisabledEmpty ∧
        l1.cacheVector = [] ∧ l1.cacheUsage = 0 ∧
        l1.cacheAllocCount = 0) := by
  refine ⟨?_, ?_, ?_, ?_, ?_, ?_⟩
  · intro cb
    exact ⟨rfl, rfl, rfl, rfl⟩
  · intro l hcons hde
    exact ⟨_, setUseCache_false_spec l hcons hde, rfl, rfl, rfl, rfl⟩
  · intro l buf hen
    exact free_disabled l buf hen
  · intro l size fresh hen
    have hmiss := allocFromCache_disabled l size hen
    refine ⟨hmiss, ?_⟩
    unfold G2dBufPoolInstance.alloc
    rw [hmiss]
  · intro l size fresh l1 hde h
    rw [applyOp_alloc_eq] at h
    cases hA : l.allocFromCache size with
    | hit buf l2 =>
      rw [hA] at h
      simp only [Option.some.injEq] at h
      subst h
      obtain ⟨hen, i, hget, hl2, -⟩ :=
        allocFromCache_hit_spec l size buf l2 hA
      subst hl2
      intro hcon
      simp only [hen] at hcon
      exact absurd hcon (by simp)
    | miss =>
      rw [hA] at h
      simp only [Option.some.injEq] at h
      subst h
      exact hde
    | err =>
      rw [hA] at h
      exact absurd h (by simp)
  · intro l umax cmax hcons
    refine ⟨_, setCacheConfig_spec l umax cmax hcons, ?_, rfl, rfl, rfl⟩
    intro _
    exact ⟨rfl, rfl, rfl⟩

/-- Witness for C10: disabling an enabled lane holding two 4-byte buffers
drains it to the empty state; a free on the initial (disabled) lane
bypasses the cache. -/
theorem pool_disabled_lane_empty_witness :
    (∃ l1, (G2dBufPoolInstance.mk true true 100 4 8 2
        [⟨1, 0, 4⟩, ⟨2, 0, 4⟩]).setUseCache false = some l1 ∧
      l1.cacheEnabled = false ∧ l1.cacheVector = [] ∧ l1.cacheUsage = 0 ∧
      l1.cacheAllocCount = 0) ∧
    (G2dBufPoolInstance.mkInitial true).free ⟨5, 0, 16⟩ = .bypass := by
  constructor
  · exact pool_disabled_lane_empty.2.1 _ (by decide) (by decide)
  · exact pool_disabled_lane_empty.2.2.1 _ ⟨5, 0, 16⟩ rfl

/-- Claim C4: in a registry whose registered (positive-size) ranges are
pairwise non-overlapping, the lookup — probing with a unit-length range at
the queried address under the comparator that treats overlapping ranges as
equal — returns the unique registered container whose half-open range
contains the address, and returns not-found (null descriptor) when no
registered range contains it. -/
theorem repo_lookup_correct (r : G2dBufRepo) (a : Nat)
    (hpos : ∀ x ∈ r.allocSet, 1 ≤ x.g2dBuf.buf_size)
    (hdisj : r.allocSet.Pairwise
      (fun x y => g2dBufOverlap x.g2dBuf y.g2dBuf = false)) :
    (∀ e ∈ r.allocSet, inRange e.g2dBuf a →
      r.isVaddrG2dBufNoLock a = some e) ∧
    ((∀ e ∈ r.allocSet, ¬ inRange e.g2dBuf a) →
      r.isVaddrG2dBufNoLock a = none) := by
  constructor
  · intro e he hin
    exact find?_equiv_unique r.allocSet a hpos hdisj e he hin
  · intro hno
    exact find?_equiv_none r.allocSet a hpos hno

/-- Witness for C4 at a concrete registry: address 205 is found inside
`[200, 210)`, address 110 is found nowhere. -/
theorem repo_lookup_correct_witness :
    (G2dBufRepo.mk [⟨⟨1, 100, 10⟩, true⟩, ⟨⟨2, 200, 10⟩, false⟩]
      2).isVaddrG2dBufNoLock 205 = some ⟨⟨2, 200, 10⟩, false⟩ ∧
    (G2dBufRepo.mk [⟨⟨1, 100, 10⟩, true⟩]
      1).isVaddrG2dBufNoLock 110 = none := by
  constructor
  · exact (repo_lookup_correct _ 205 (by decide) (by decide)).1 _ (by decide)
      (by decide)
  · exact (repo_lookup_correct _ 110 (by decide) (by decide)).2 (by decide)

/-- Claim C5: the facade's `enable`/`disable` maintain a reference count:
the first `enable` (count 0 to 1) turns caching on in both pool lanes; the
last `disable` (count 1 to 0) turns caching off and drains both lanes to
zero cached entries and bytes; any other `enable`/`disable` only changes the
count (so enable, enable, disable leaves caching active); `disable` at count
0 raises a fatal error. -/
theorem allocator_enable_disable_refcount (s : Imx2dGAllocator)
    (hc : s.g2dBufPool.cachedPool.Consistent)
    (hu : s.g2dBufPool.uncachedPool.Consistent)
    (hdc : s.g2dBufPool.cachedPool.DisabledEmpty)
    (hdu : s.g2dBufPool.uncachedPool.DisabledEmpty) :
    (s.enableCount = 0 → s.enable = some
      { s with enableCount := 1, g2dBufPool :=
          ⟨{ s.g2dBufPool.cachedPool with cacheEnabled := true },
           { s.g2dBufPool.uncachedPool with cacheEnabled := true }⟩ }) ∧
    (1 ≤ s.enableCount →
      s.enable = some { s with enableCount := s.enableCount + 1 }) ∧
    (s.enableCount = 1 → ∃ s1, s.disable = some s1 ∧ s1.enableCount = 0 ∧
      s1.g2dBufPool.cachedPool.cacheEnabled = false ∧
      s1.g2dBufPool.cachedPool.cacheVector = [] ∧
      s1.g2dBufPool.cachedPool.cacheUsage = 0 ∧
      s1.g2dBufPool.cachedPool.cacheAllocCount = 0 ∧
      s1.g2dBufPool.uncachedPool.cacheEnabled = false ∧
      s1.g2dBufPool.uncachedPool.cacheVector = [] ∧
      s1.g2dBufPool.uncachedPool.cacheUsage = 0 ∧
      s1.g2dBufPool.uncachedPool.cacheAllocCount = 0) ∧
    (2 ≤ s.enableCount →
      s.disable = some { s with enableCount := s.enableCount - 1 }) ∧
    (s.enableCount = 0 → s.disable = none) ∧
    (s.enableCount = 0 → ∃ s1 s2 s3, s.enable = some s1 ∧
      s1.enable = some s2 ∧ s2.disable = some s3 ∧ s3.enableCount = 1 ∧
      s3.g2dBufPool.cachedPool.cacheEnabled = true ∧
      s3.g2dBufPool.uncachedPool.cacheEnabled = true) := by
  have henable1 : s.enableCount = 0 → s.enable = some
      { s with enableCount := 1, g2dBufPool :=
          ⟨{ s.g2dBufPool.cachedPool with cacheEnabled := true },
           { s.g2dBufPool.uncachedPool with cacheEnabled := true }⟩ } := by
    intro h0
    unfold Imx2dGAllocator.enable
    rw [h0, if_pos rfl]
    simp only [setUseCache_true_spec]
  have henable_n : ∀ t : Imx2dGAllocator, 1 ≤ t.enableCount →
      t.enable = some { t with enableCount := t.enableCount + 1 } := by
    intro t ht
    unfold Imx2dGAllocator.enable
    rw [if_neg (by omega)]
  have hdisable_n : ∀ t : Imx2dGAllocator, 2 ≤ t.enableCount →
      t.disable = some { t with enableCount := t.enableCount - 1 } := by
    intro t ht
    unfold Imx2dGAllocator.disable
    rw [if_neg (by omega), if_neg (by omega)]
  refine ⟨henable1, henable_n s, ?_, hdisable_n s, ?_, ?_⟩
  · intro h1
    unfold Imx2dGAllocator.disable
    rw [h1, if_neg (by omega), if_pos rfl]
    simp only [setUseCache_false_spec s.g2dBufPool.cachedPool hc hdc,
      setUseCache_false_spec s.g2dBufPool.uncachedPool hu hdu]
    exact ⟨_, rfl, rfl, rfl, rfl, rfl, rfl, rfl, rfl, rfl, rfl⟩
  · intro h0
    unfold Imx2dGAllocator.disable
    rw [h0, if_pos rfl]
  · intro h0
    refine ⟨{ s with enableCount := 1, g2dBufPool :=
        ⟨{ s.g2dBufPool.cachedPool with cacheEnabled := true },
         { s.g2dBufPool.uncachedPool with cacheEnabled := true }⟩ }, _, _,
      henable1 h0, henable_n _ (le_refl 1), hdisable_n _ (le_refl 2),
      rfl, rfl, rfl⟩

/-- Witness for C5 on the initial allocator state: enable turns both lanes
on, a second disable at count 0 errors, and enable-enable-disable leaves
caching active. -/
theorem allocator_enable_disable_refcount_witness :
    (Imx2dGAllocator.mkInitial.enable = some
      { Imx2dGAllocator.mkInitial with enableCount := 1, g2dBufPool :=
          ⟨{ Imx2dGAllocator.mkInitial.g2dBufPool.cachedPool with
               cacheEnabled := true },
           { Imx2dGAllocator.mkInitial.g2dBufPool.uncachedPool with
               cacheEnabled := true }⟩ }) ∧
    Imx2dGAllocator.mkInitial.disable = none ∧
    (∃ s1 s2 s3, Imx2dGAllocator.mkInitial.enable = some s1 ∧
      s1.enable = some s2 ∧ s2.disable = some s3 ∧ s3.enableCount = 1 ∧
      s3.g2dBufPool.cachedPool.cacheEnabled = true ∧
      s3.g2dBufPool.uncachedPool.cacheEnabled = true) := by
  have h := allocator_enable_disable_refcount Imx2dGAllocator.mkInitial
    (by decide) (by decide) (by decide) (by decide)
  exact ⟨h.1 rfl, h.2.2.2.2.1 rfl, h.2.2.2.2.2 rfl⟩

/-- Claim C7: when no cached buffer qualifies and the underlying allocator
cannot satisfy the request (its single reply is null), the facade alloc
returns a null address with a null handle out-parameter and leaves the whole
state unchanged — no registry entry is added and the aggregate live-byte
usage and live allocation count keep their prior values; no retry and no
fallback allocation occur (the one `fresh` reply is the only underlying
request made). -/
theorem allocator_alloc_failure_clean (s : Imx2dGAllocator) (size : Nat)
    (cacheable : Bool)
    (hmiss : (if cacheable then s.g2dBufPool.cachedPool
        else s.g2dBufPool.uncachedPool).allocFromCache size = .miss) :
    s.alloc size cacheable none = some (none, s) := by
  cases cacheable with
  | false =>
    unfold Imx2dGAllocator.alloc G2dBufPoolInstance.alloc
    rw [hmiss]
    rfl
  | true =>
    unfold Imx2dGAllocator.alloc G2dBufPoolInstance.alloc
    rw [hmiss]
    rfl

/-- Witness for C7: on the initial state with an exhausted underlying
allocator, alloc fails cleanly and changes nothing. -/
theorem allocator_alloc_failure_clean_witness :
    Imx2dGAllocator.mkInitial.alloc 64 true none =
      some (none, Imx2dGAllocator.mkInitial) :=
  allocator_alloc_failure_clean Imx2dGAllocator.mkInitial 64 true (by decide)

/-- Claim C8: `setCacheConfig` first drains every cached entry of both
lanes (leaving each lane's cached bytes and cached count zero) and only
then installs the new byte and count ceilings on both lanes; consequently
the cache never holds contents violating the newly applied limits. -/
theorem allocator_set_cache_config_drains (s : Imx2dGAllocator)
    (umax cmax : Nat)
    (hc : s.g2dBufPool.cachedPool.Consistent)
    (hu : s.g2dBufPool.uncachedPool.Consistent) :
    ∃ s1, s.setCacheConfig umax cmax = some s1 ∧
      s1.g2dBufPool.cachedPool.cacheVector = [] ∧
      s1.g2dBufPool.cachedPool.cacheUsage = 0 ∧
      s1.g2dBufPool.cachedPool.cacheAllocCount = 0 ∧
      s1.g2dBufPool.cachedPool.cacheUsageMax = umax ∧
      s1.g2dBufPool.cachedPool.cacheAllocCountMax = cmax ∧
      s1.g2dBufPool.uncachedPool.cacheVector = [] ∧
      s1.g2dBufPool.uncachedPool.cacheUsage = 0 ∧
      s1.g2dBufPool.uncachedPool.cacheAllocCount = 0 ∧
      s1.g2dBufPool.uncachedPool.cacheUsageMax = umax ∧
      s1.g2dBufPool.uncachedPool.cacheAllocCountMax = cmax ∧
      s1.g2dBufPool.cachedPool.cacheUsage ≤ umax ∧
      s1.g2dBufPool.cachedPool.cacheAllocCount ≤ cmax ∧
      s1.g2dBufPool.uncachedPool.cacheUsage ≤ umax ∧
      s1.g2dBufPool.uncachedPool.cacheAllocCount ≤ cmax := by
  unfold Imx2dGAllocator.setCacheConfig
  simp only [setCacheConfig_spec s.g2dBufPool.cachedPool umax cmax hc,
    setCacheConfig_spec s.g2dBufPool.uncachedPool umax cmax hu]
  exact ⟨_, rfl, rfl, rfl, rfl, rfl, rfl, rfl, rfl, rfl, rfl, rfl,
    Nat.zero_le _, Nat.zero_le _, Nat.zero_le _, Nat.zero_le _⟩

/-- Witness for C8: applying ceilings 50/1 to an allocator whose lanes hold
two and one cached buffers drains both lanes and installs the ceilings. -/
theorem allocator_set_cache_config_drains_witness :
    ∃ s1, (Imx2dGAllocator.mk 1 0 0 ⟨[], 0⟩
        ⟨⟨true, true, 100, 4, 8, 2, [⟨1, 0, 4⟩, ⟨2, 0, 4⟩]⟩,
         ⟨true, false, 100, 4, 4, 1, [⟨3, 0, 4⟩]⟩⟩).setCacheConfig 50 1
        = some s1 ∧
      s1.g2dBufPool.cachedPool.cacheVector = [] ∧
      s1.g2dBufPool.cachedPool.cacheUsage = 0 ∧
      s1.g2dBufPool.cachedPool.cacheAllocCount = 0 ∧
      s1.g2dBufPool.cachedPool.cacheUsageMax = 50 ∧
      s1.g2dBufPool.cachedPool.cacheAllocCountMax = 1 ∧
      s1.g2dBufPool.uncachedPool.cacheVector = [] ∧
      s1.g2dBufPool.uncachedPool.cacheUsage = 0 ∧
      s1.g2dBufPool.uncachedPool.cacheAllocCount = 0 ∧
      s1.g2dBufPool.uncachedPool.cacheUsageMax = 50 ∧
      s1.g2dBufPool.uncachedPool.cacheAllocCountMax = 1 ∧
      s1.g2dBufPool.cachedPool.cacheUsage ≤ 50 ∧
      s1.g2dBufPool.cachedPool.cacheAllocCount ≤ 1 ∧
      s1.g2dBufPool.uncachedPool.cacheUsage ≤ 50 ∧
      s1.g2dBufPool.uncachedPool.cacheAllocCount ≤ 1 :=
  allocator_set_cache_config_drains _ 50 1 (by decide) (by decide)

/-- Claim C9: for an allocator whose caching is disabled in both lanes, a
successful facade alloc (served by the underlying allocator, registration
succeeding) followed immediately by free of the returned handle leaves the
aggregate live-byte usage and live allocation count equal to their values
before the alloc, and restores the registry. -/
theorem allocator_roundtrip_net_zero (s : Imx2dGAllocator) (size : Nat)
    (cacheable : Bool) (buf : g2d_buf)
    (hdc : s.g2dBufPool.cachedPool.cacheEnabled = false)
    (hdu : s.g2dBufPool.uncachedPool.cacheEnabled = false)
    (hcnt : s.g2dBufRepo.allocCount = s.g2dBufRepo.allocSet.length)
    (hfr : ∀ e ∈ s.g2dBufRepo.allocSet, g2dBufEquiv buf e.g2dBuf = false ∧
      g2dBufEquiv (gProbe buf.buf_vaddr) e.g2dBuf = false) :
    ∃ s1, s.alloc size cacheable (some buf) = some (some buf, s1) ∧
      ∃ s2, s1.free buf = some s2 ∧ s2.usage = s.usage ∧
        s2.allocCount = s.allocCount ∧ s2.g2dBufRepo = s.g2dBufRepo := by
  have hreg := register_fresh s.g2dBufRepo buf cacheable hcnt
    (fun e he => (hfr e he).1) (fun e he => (hfr e he).2)
  have hunreg := unregister_fresh s.g2dBufRepo buf cacheable hcnt
    (fun e he => (hfr e he).1) (fun e he => (hfr e he).2)
  have hlook : (G2dBufRepo.mk
      (s.g2dBufRepo.allocSet ++ [⟨buf, cacheable⟩])
      (s.g2dBufRepo.allocCount + 1)).isVaddrG2dBufNoLock buf.buf_vaddr
      = some ⟨buf, cacheable⟩ := by
    unfold G2dBufRepo.isVaddrG2dBufNoLock
    rw [find?_append_first_none _ _ _ (fun e he => (hfr e he).2)]
    exact List.find?_cons_of_pos _ (g2dBufEquiv_probe_base buf)
  cases cacheable with
  | false =>
    have halloc : s.alloc size false (some buf) = some (some buf,
        { s with g2dBufRepo := ⟨s.g2dBufRepo.allocSet ++ [⟨buf, false⟩],
                   s.g2dBufRepo.allocCount + 1⟩,
                 allocCount := s.allocCount + 1,
                 usage := s.usage + buf.buf_size }) := by
      unfold Imx2dGAllocator.alloc G2dBufPoolInstance.alloc
      simp only [if_neg (show ¬(false = true) by simp),
        allocFromCache_disabled s.g2dBufPool.uncachedPool size hdu, hreg]
    refine ⟨_, halloc, ?_⟩
    have hfree : ({ s with
        g2dBufRepo := ⟨s.g2dBufRepo.allocSet ++ [⟨buf, false⟩],
          s.g2dBufRepo.allocCount + 1⟩,
        allocCount := s.allocCount + 1,
        usage := s.usage + buf.buf_size } : Imx2dGAllocator).free buf
        = some { s with
            g2dBufRepo := ⟨s.g2dBufRepo.allocSet, s.g2dBufRepo.allocCount⟩,
            allocCount := s.allocCount + 1 - 1,
            usage := s.usage + buf.buf_size - buf.buf_size } := by
      unfold Imx2dGAllocator.free
      simp only [hlook, if_neg (show ¬(buf ≠ buf) by simp),
        if_neg (show ¬(false = true) by simp), hunreg,
        free_disabled s.g2dBufPool.uncachedPool buf hdu]
    refine ⟨_, hfree, ?_, ?_, rfl⟩
    · show s.usage + buf.buf_size - buf.buf_size = s.usage
      omega
    · show s.allocCount + 1 - 1 = s.allocCount
      omega
  | true =>
    have halloc : s.alloc size true (some buf) = some (some buf,
        { s with g2dBufRepo := ⟨s.g2dBufRepo.allocSet ++ [⟨buf, true⟩],
                   s.g2dBufRepo.allocCount + 1⟩,
                 allocCount := s.allocCount + 1,
                 usage := s.usage + buf.buf_size }) := by
      unfold Imx2dGAllocator.alloc G2dBufPoolInstance.alloc
      simp only [if_pos (show true = true from rfl), if_true,
        allocFromCache_disabled s.g2dBufPool.cachedPool size hdc, hreg]
    refine ⟨_, halloc, ?_⟩
    have hfree : ({ s with
        g2dBufRepo := ⟨s.g2dBufRepo.allocSet ++ [⟨buf, true⟩],
          s.g2dBufRepo.allocCount + 1⟩,
        allocCount := s.allocCount + 1,
        usage := s.usage + buf.buf_size } : Imx2dGAllocator).free buf
        = some { s with
            g2dBufRepo := ⟨s.g2dBufRepo.allocSet, s.g2dBufRepo.allocCount⟩,
            allocCount := s.allocCount + 1 - 1,
            usage := s.usage + buf.buf_size - buf.buf_size } := by
      unfold Imx2dGAllocator.free
      simp only [hlook, if_neg (show ¬(buf ≠ buf) by simp),
        if_pos (show true = true from rfl), if_true, hunreg,
        free_disabled s.g2dBufPool.cachedPool buf hdc]
    refine ⟨_, hfree, ?_, ?_, rfl⟩
    · show s.usage + buf.buf_size - buf.buf_size = s.usage
      omega
    · show s.allocCount + 1 - 1 = s.allocCount
      omega

/-- Witness for C9: a 16-byte alloc/free round trip on the initial
(disabled) allocator restores the counters and registry. -/
theorem allocator_roundtrip_net_zero_witness :
    ∃ s1, Imx2dGAllocator.mkInitial.alloc 16 true (some ⟨1, 1000, 16⟩)
        = some (some ⟨1, 1000, 16⟩, s1) ∧
      ∃ s2, s1.free ⟨1, 1000, 16⟩ = some s2 ∧
        s2.usage = Imx2dGAllocator.mkInitial.usage ∧
        s2.allocCount = Imx2dGAllocator.mkInitial.allocCount ∧
        s2.g2dBufRepo = Imx2dGAllocator.mkInitial.g2dBufRepo :=
  allocator_roundtrip_net_zero Imx2dGAllocator.mkInitial 16 true
    ⟨1, 1000, 16⟩ rfl rfl rfl (by decide)

/-- Counterexample to claim C6 as stated: `ceBuf` is not registered in
`ceRepo` (no registered descriptor equals it), yet `unregisterDescriptor`
completes without raising any error — the base-address pre-assert finds the
overlapping registered entry `[100, 110)`, the erase silently removes that
other entry, and both post-asserts pass, leaving the repository empty. -/
theorem repo_unregister_silent_alias :
    (∀ e ∈ ceRepo.allocSet, e.g2dBuf ≠ ceBuf) ∧
    ceRepo.unregisterDescriptor ceBuf = some ⟨[], 0⟩ := by decide

/-- Claim C6 (amended): every listed precondition violation raises an error,
except that unregistering a not-registered descriptor is not always
detected: (i) registering a descriptor whose range overlaps an already
registered range throws (either on the base-address pre-assert, or on the
count assert after the set insert refuses the comparator-equivalent
element); (ii) duplicate registration of an already registered buffer
throws; (iii) unregistering a descriptor whose base address no registered
range contains throws; (iv) unregistering a descriptor comparator-equivalent
to two or more registered entries throws on the count assert; (v)
unregistering a descriptor comparator-equivalent to exactly one registered
entry, with its base address inside some registered range, completes without
error and erases that entry — silently, even when the descriptor itself was
never registered; (vi) the facade free of a handle whose address is not
registered throws; (vii) the facade free of a handle that differs from the
descriptor registered at its address throws. -/
theorem precondition_violations_raise :
    (∀ (r : G2dBufRepo) (b : g2d_buf) (cb : Bool),
      r.allocCount = r.allocSet.length →
      (∃ x ∈ r.allocSet, g2dBufOverlap b x.g2dBuf = true) →
      r.registerDescriptor b cb = none) ∧
    (∀ (r : G2dBufRepo) (b : g2d_buf) (cb cb1 : Bool),
      r.allocCount = r.allocSet.length → 1 ≤ b.buf_size →
      (⟨b, cb1⟩ : G2dBufContainer) ∈ r.allocSet →
      r.registerDescriptor b cb = none) ∧
    (∀ (r : G2dBufRepo) (b : g2d_buf),
      (∀ x ∈ r.allocSet, 1 ≤ x.g2dBuf.buf_size) →
      (∀ x ∈ r.allocSet, ¬ inRange x.g2dBuf b.buf_vaddr) →
      r.unregisterDescriptor b = none) ∧
    (∀ (r : G2dBufRepo) (b : g2d_buf),
      r.allocCount = r.allocSet.length →
      2 ≤ (r.allocSet.filter (fun e => g2dBufEquiv b e.g2dBuf)).length →
      r.unregisterDescriptor b = none) ∧
    (∀ (r : G2dBufRepo) (b : g2d_buf),
      r.allocCount = r.allocSet.length → 1 ≤ b.buf_size →
      (∃ x ∈ r.allocSet, inRange x.g2dBuf b.buf_vaddr) →
      (r.allocSet.filter (fun e => g2dBufEquiv b e.g2dBuf)).length = 1 →
      r.unregisterDescriptor b =
        some ⟨r.allocSet.filter (fun e => ! g2dBufEquiv b e.g2dBuf),
              r.allocCount - 1⟩) ∧
    (∀ (s : Imx2dGAllocator) (b : g2d_buf),
      s.g2dBufRepo.isVaddrG2dBufNoLock b.buf_vaddr = none →
      s.free b = none) ∧
    (∀ (s : Imx2dGAllocator) (b : g2d_buf) (e : G2dBufContainer),
      s.g2dBufRepo.isVaddrG2dBufNoLock b.buf_vaddr = some e →
      e.g2dBuf ≠ b → s.free b = none) := by
  refine ⟨?_, ?_, ?_, ?_, ?_, ?_, ?_⟩
  · intro r b cb hcnt hov
    obtain ⟨x, hx, hxov⟩ := hov
    exact register_overlap_err r b cb hcnt x hx hxov
  · intro r b cb cb1 hcnt hpos hmem
    have hov : g2dBufOverlap b b = true := by
      simp only [g2dBufOverlap, Nat.max_self, Nat.min_self,
        decide_eq_true_eq]
      omega
    exact register_overlap_err r b cb hcnt ⟨b, cb1⟩ hmem hov
  · intro r b hpos hno
    exact unregister_not_found r b (find?_equiv_none r.allocSet b.buf_vaddr
      hpos hno)
  · intro r b hcnt hmany
    exact unregister_multi_equiv r b hcnt hmany
  · intro r b hcnt hbs hbase hone
    exact unregister_single_equiv r b hcnt hbs hbase hone
  · intro s b hl
    unfold Imx2dGAllocator.free
    rw [hl]
  · intro s b e hl hne
    unfold Imx2dGAllocator.free
    simp only [hl]
    rw [if_pos hne]

/-- Witness for the amended C6 at concrete inputs: an overlapping
registration, a duplicate registration, an unregister of an unknown range,
an unregister spanning two registered ranges, a facade free of an
unregistered handle, and a facade free of a mismatched handle all raise
errors; the unregister of a never-registered descriptor equivalent to
exactly one registered entry completes silently, emptying the repository. -/
theorem precondition_violations_raise_witness :
    (G2dBufRepo.mk [⟨⟨1, 100, 10⟩, true⟩] 1).registerDescriptor
      ⟨2, 95, 8⟩ false = none ∧
    (G2dBufRepo.mk [⟨⟨1, 100, 10⟩, true⟩] 1).registerDescriptor
      ⟨1, 100, 10⟩ true = none ∧
    (G2dBufRepo.mk [⟨⟨1, 100, 10⟩, true⟩] 1).unregisterDescriptor
      ⟨3, 200, 4⟩ = none ∧
    (G2dBufRepo.mk [⟨⟨1, 100, 10⟩, true⟩, ⟨⟨2, 110, 10⟩, false⟩]
      2).unregisterDescriptor ⟨3, 105, 10⟩ = none ∧
    ceRepo.unregisterDescriptor ceBuf = some (G2dBufRepo.mk [] 0) ∧
    Imx2dGAllocator.mkInitial.free ⟨9, 50, 4⟩ = none ∧
    (Imx2dGAllocator.mk 0 1 10 ⟨[⟨⟨1, 100, 10⟩, true⟩], 1⟩
      ⟨G2dBufPoolInstance.mkInitial true,
       G2dBufPoolInstance.mkInitial false⟩).free ⟨2, 100, 10⟩ = none := by
  refine ⟨?_, ?_, ?_, ?_, ?_, ?_, ?_⟩
  · exact precondition_violations_raise.1 _ _ _ (by decide)
      ⟨⟨⟨1, 100, 10⟩, true⟩, by decide, by decide⟩
  · exact precondition_violations_raise.2.1 _ _ true true (by decide)
      (by decide) (by decide)
  · exact precondition_violations_raise.2.2.1 _ _ (by decide) (by decide)
  · exact precondition_violations_raise.2.2.2.1 _ _ (by decide) (by decide)
  · exact (precondition_violations_raise.2.2.2.2.1 ceRepo ceBuf (by decide)
      (by decide) ⟨⟨⟨1, 100, 10⟩, true⟩, by decide, by decide⟩
      (by decide)).trans (by decide)
  · exact precondition_violations_raise.2.2.2.2.2.1 _ _ (by decide)
  · exact precondition_violations_raise.2.2.2.2.2.2 _ _ ⟨⟨1, 100, 10⟩, true⟩
      (by decide) (by decide)
